import Mathlib

/-!
# Verification of the blockstore trie-blob storage and migration subsystem

Shallow embedding of `src/chainstate/stacks/index/file.rs`: the `TrieFile`
blob store (RAM and Disk backends), its LZ4 compression framing, the offset
and decompressed-content caches, and the two migration procedures
(`export_trie_blobs`, `compress_trie_blobs`).

Bytes are modelled as `List Nat` (each element a byte value).  Fallible Rust
code returning `Result` is modelled with an `Outcome` type distinguishing
normal errors from process-terminating panics, and each operation also
produces the list of externally visible filesystem / metadata events it
performs, so that ordering properties (durability before publication) can be
stated.
-/

namespace Blockstore

/-! ## LZ4 framing codec

The repository compresses blobs with the `lz4_flex` crate
(`compress_prepend_size` / `decompress_size_prepended`), whose implementation
is not part of this repository's sources.

Modelled from the spec: the codec "applies LZ4 block compression and prepends
the original length as a 4-byte little-endian integer"; decompression "reads
the length prefix and inflates exactly that many bytes" (spec section 4.1 and
the on-disk framing of section 6).  The compressor below emits a valid LZ4
block consisting of a single literal-only sequence (the LZ4 block format
token: high nibble literal count with 255-extension bytes, then the
literals); the decompressor decodes the full LZ4 block sequence format,
including match copies.  The 4-byte little-endian prefix stores the length
reduced modulo 2^32, exactly as the Rust cast of a length to `u32` does.
-/

/-- Little-endian 4-byte encoding of a length, as produced by casting to
`u32` and taking the little-endian bytes. -/
def le32 (n : Nat) : List Nat :=
  [n % 256, n / 256 % 256, n / 65536 % 256, n / 16777216 % 256]

/-- LSIC extension-byte encoding used by LZ4 for lengths of 15 or more:
emit 255 while the remainder is at least 255, then the final byte. -/
def encodeLSIC (n : Nat) : List Nat :=
  if n < 255 then [n] else 255 :: encodeLSIC (n - 255)
termination_by n
decreasing_by
  simp_wf
  omega

/-- Read an LSIC extension: accumulate 255s until a byte below 255. -/
def readLSIC : List Nat → Option (Nat × List Nat)
  | [] => Option.none
  | x :: rest =>
    if x = 255 then
      match readLSIC rest with
      | Option.some (n, r) => Option.some (255 + n, r)
      | Option.none => Option.none
    else
      Option.some (x, rest)

/-- Copy `n` bytes from `dist` bytes behind the end of the output, one byte
at a time (LZ4 match copy; overlapping copies repeat recent output). -/
def copyMatch (acc : List Nat) (dist : Nat) : Nat → List Nat
  | 0 => acc
  | n + 1 => copyMatch (acc ++ [acc.getD (acc.length - dist) 0]) dist n

/-- Encode a byte string as one literal-only LZ4 block sequence. -/
def lz4CompressBlock (b : List Nat) : List Nat :=
  if b.length < 15 then (b.length * 16) :: b
  else 240 :: (encodeLSIC (b.length - 15) ++ b)

/-- Decode an LZ4 block: repeatedly read a token, copy literals, and, unless
the block ends after the literals, read a 2-byte offset and copy a match.
`fuel` bounds the number of sequences; every sequence consumes at least the
token byte, so fuel one more than the input length never runs out. -/
def lz4DecodeBlock : Nat → List Nat → List Nat → Option (List Nat)
  | 0, _, _ => Option.none
  | _ + 1, [], acc => Option.some acc
  | fuel + 1, token :: rest, acc =>
    let litRes :=
      if token / 16 = 15 then
        match readLSIC rest with
        | Option.some (n, r) => Option.some (15 + n, r)
        | Option.none => Option.none
      else Option.some (token / 16, rest)
    match litRes with
    | Option.none => Option.none
    | Option.some (litLen, r1) =>
      if litLen ≤ r1.length then
        let acc1 := acc ++ r1.take litLen
        match r1.drop litLen with
        | [] => Option.some acc1
        | [_] => Option.none
        | o1 :: o2 :: r3 =>
          let dist := o1 + 256 * o2
          if dist = 0 ∨ acc1.length < dist then Option.none
          else
            let matchRes :=
              if token % 16 = 15 then
                match readLSIC r3 with
                | Option.some (n, r) => Option.some (15 + n, r)
                | Option.none => Option.none
              else Option.some (token % 16, r3)
            match matchRes with
            | Option.none => Option.none
            | Option.some (mExtra, r4) =>
              lz4DecodeBlock fuel r4 (copyMatch acc1 dist (mExtra + 4))
      else Option.none

/-- `lz4_flex::compress_prepend_size`: 4-byte little-endian uncompressed
length, then the LZ4 block. -/
def lz4CompressPrependSize (b : List Nat) : List Nat :=
  le32 b.length ++ lz4CompressBlock b

/-- `lz4_flex::decompress_size_prepended`: read the 4-byte little-endian
expected length, decode the block, and fail unless exactly that many bytes
came out.  Any malformed input yields `none` (the Rust error case). -/
def lz4DecompressSizePrepended (input : List Nat) : Option (List Nat) :=
  match input with
  | a :: b :: c :: d :: rest =>
    let n := a + 256 * b + 65536 * c + 16777216 * d
    match lz4DecodeBlock (rest.length + 1) rest [] with
    | Option.some out => if out.length = n then Option.some out else Option.none
    | Option.none => Option.none
  | _ => Option.none

/-! ### Round-trip lemmas -/

theorem readLSIC_encodeLSIC (n : Nat) (tail : List Nat) :
    readLSIC (encodeLSIC n ++ tail) = Option.some (n, tail) := by
  induction n using Nat.strong_induction_on with
  | _ n ih =>
    rw [encodeLSIC]
    by_cases h : n < 255
    · simp only [if_pos h, List.cons_append, List.nil_append, readLSIC]
      have hne : ¬ (n = 255) := by omega
      simp [hne]
    · simp only [if_neg h, List.cons_append, readLSIC, if_pos rfl]
      rw [ih (n - 255) (by omega)]
      have : 255 + (n - 255) = n := by omega
      simp [this]

theorem lz4DecodeBlock_compressBlock (b : List Nat) (acc : List Nat) (fuel : Nat) :
    lz4DecodeBlock (fuel + 1) (lz4CompressBlock b) acc = Option.some (acc ++ b) := by
  rw [lz4CompressBlock]
  by_cases h : b.length < 15
  · have h16 : b.length * 16 / 16 = b.length := by omega
    have hne : ¬ (b.length = 15) := by omega
    simp only [if_pos h, lz4DecodeBlock, h16, if_neg hne, le_refl, if_pos,
      List.take_length, List.drop_length]
  · have hlen : 15 + (b.length - 15) = b.length := by omega
    simp only [if_neg h]
    norm_num [lz4DecodeBlock, readLSIC_encodeLSIC, hlen]

theorem le32_decode (n : Nat) :
    n % 256 + 256 * (n / 256 % 256) + 65536 * (n / 65536 % 256)
      + 16777216 * (n / 16777216 % 256) = n % 4294967296 := by
  omega

/-- Framed round trip: decompressing a compressed blob recovers it exactly
when the original length fits the 4-byte prefix, and fails otherwise. -/
theorem lz4_roundtrip_framed (b : List Nat) :
    lz4DecompressSizePrepended (lz4CompressPrependSize b)
      = if b.length < 4294967296 then Option.some b else Option.none := by
  rw [lz4CompressPrependSize, le32]
  simp only [List.cons_append, List.nil_append, lz4DecompressSizePrepended,
    lz4DecodeBlock_compressBlock b [] (lz4CompressBlock b).length, List.nil_append,
    le32_decode]
  by_cases h : b.length < 4294967296
  · have : b.length % 4294967296 = b.length := Nat.mod_eq_of_lt h
    simp [this, h]
  · have : ¬ (b.length = b.length % 4294967296) := by
      have := Nat.mod_lt b.length (show 0 < 4294967296 by norm_num)
      omega
    have h2 : ¬ (b.length = b.length % 4294967296) := this
    simp only [if_neg h]
    rw [if_neg (by omega : ¬ (b.length = b.length % 4294967296))]

/-! ## Errors, outcomes and observable events -/

/-- The error taxonomy visible to this subsystem (spec section 7): I/O
errors, metadata-store errors, and the not-found skip condition. -/
inductive MarfError
  | notFound
  | dbError
  | ioError
deriving DecidableEq, Repr

/-- Result of running an operation: a value, a typed error returned to the
caller, or a process-terminating panic carrying the operator-facing
message. -/
inductive Outcome (α : Type)
  | ok (a : α)
  | err (e : MarfError)
  | panicked (msg : String)
deriving DecidableEq, Repr

/-- Externally visible effects, recorded in order: backend writes, flushes,
durability syncs, backend reads (each tagged with the backend path), and
publications of a BlobLocation to the metadata store. -/
inductive FsEvent
  | writeFile (path : String) (bytes : List Nat)
  | flushFile (path : String)
  | syncFile (path : String)
  | readFile (path : String) (offset length : Nat)
  | publishLocation (blockId offset length : Nat)
deriving DecidableEq, Repr

def memSentinel : String := ":memory:"

/-- Message of the `panic!` at the top of both migration procedures. -/
def migrationAbortMsg : String :=
  "PARTIAL MIGRATION DETECTED! This is an irrecoverable error. You will need to restart your node from genesis."

/-- Message standing for the panic of `Option::unwrap` on a failed
decompression. -/
def decompressFailedMsg : String :=
  "called unwrap on a failed lz4 decompression"

/-- Message standing for the panic of `Option::unwrap` on a missing
compression result. -/
def unwrapNoneMsg : String :=
  "called unwrap on an absent compression result"

/-! ## Data model -/

/-- `TrieIdOffset`: a byte range (offset, stored length) inside a backend. -/
structure TrieIdOffset where
  offset : Nat
  length : Nat
deriving DecidableEq, Repr

/-- `TrieBlobCompression`: how stored bytes relate to trie bytes. -/
inductive TrieBlobCompression
  | none
  | lz4
deriving DecidableEq, Repr

/-- `BlobCompressionResult` as in the source. -/
structure BlobCompressionResult where
  compressed_bytes : List Nat
  compressed_blob_size : Nat
  compression_algorithm : TrieBlobCompression
deriving DecidableEq, Repr

/-- `BlobStorageResult` as in the source. -/
structure BlobStorageResult where
  offset : Nat
  uncompressed_blob_size : Nat
  storage_size : Nat
  compression : Option BlobCompressionResult
deriving DecidableEq, Repr

/-- Modelled from the spec: one row of the relational metadata store
(collaborator, not implemented in src/): block hash, confirmation status,
the optional inline (v1) blob bytes, and the optional external BlobLocation
plus compression tag. -/
structure TrieBlobRecord where
  blockHash : Nat
  unconfirmed : Bool
  inlineBlob : Option (List Nat)
  externLoc : Option (Nat × Nat × TrieBlobCompression)
deriving DecidableEq, Repr

/-- Modelled from the spec: the metadata store state.  Block ids are dense
and assigned in insertion order (spec section 3), so `records` associates
ids below `nextId` to rows; `migrated` is the completion marker and the two
`pendingMigration` flags are the partial-migration markers queried by
`detect_partial_migration_for_schema` (spec section 6). -/
structure MetadataDB where
  records : List (Nat × TrieBlobRecord)
  nextId : Nat
  migrated : Bool
  pendingMigrationV2 : Bool
  pendingMigrationV3 : Bool
deriving DecidableEq, Repr

namespace trie_sql

/-- Look up the row of a block id. -/
def lookupRecord (db : MetadataDB) (id : Nat) : Option TrieBlobRecord :=
  (db.records.find? (fun p => p.1 = id)).map Prod.snd

/-- Modelled from the spec: `count_blocks() -> u32`; ids are dense from 0,
so the count is the next id to be assigned. -/
def count_blocks (db : MetadataDB) : Nat := db.nextId

/-- Modelled from the spec: `detect_partial_migration_for_schema(v2)`. -/
def detectPendingMigrationV2 (db : MetadataDB) : Bool := db.pendingMigrationV2

/-- Modelled from the spec: `detect_partial_migration_for_schema(v3)`. -/
def detectPendingMigrationV3 (db : MetadataDB) : Bool := db.pendingMigrationV3

/-- Modelled from the spec: `set_migrated()`. -/
def set_migrated (db : MetadataDB) : MetadataDB := { db with migrated := true }

/-- Modelled from the spec: `is_unconfirmed_block`, failing with `NotFound`
when the id does not correspond to any block. -/
def is_unconfirmed_block (db : MetadataDB) (id : Nat) : Except MarfError Bool :=
  match lookupRecord db id with
  | Option.none => Except.error MarfError.notFound
  | Option.some r => Except.ok r.unconfirmed

/-- Modelled from the spec: `get_block_hash(blockId)`. -/
def get_block_hash (db : MetadataDB) (id : Nat) : Except MarfError Nat :=
  match lookupRecord db id with
  | Option.none => Except.error MarfError.notFound
  | Option.some r => Except.ok r.blockHash

/-- Modelled from the spec: `get_external_trie_offset_length(blockId) ->
BlobLocation` (with the stored compression tag). -/
def get_external_trie_offset_length (db : MetadataDB) (id : Nat) :
    Except MarfError (Nat × Nat × TrieBlobCompression) :=
  match lookupRecord db id with
  | Option.none => Except.error MarfError.notFound
  | Option.some r =>
    match r.externLoc with
    | Option.none => Except.error MarfError.notFound
    | Option.some loc => Except.ok loc

/-- Compression tag recorded for an optional compression result. -/
def tagOf (comp : Option BlobCompressionResult) : TrieBlobCompression :=
  match comp with
  | Option.none => TrieBlobCompression.none
  | Option.some c => c.compression_algorithm

/-- Modelled from the spec: `write_external_trie_blob` records a fresh
BlockId with the given BlobLocation and compression tag and returns it. -/
def write_external_trie_blob (db : MetadataDB) (bhh : Nat) (offset length : Nat)
    (comp : Option BlobCompressionResult) : MetadataDB × Nat :=
  let id := db.nextId
  let rec0 : TrieBlobRecord :=
    { blockHash := bhh, unconfirmed := false, inlineBlob := Option.none,
      externLoc := Option.some (offset, length, tagOf comp) }
  ({ db with records := db.records ++ [(id, rec0)], nextId := db.nextId + 1 }, id)

/-- Modelled from the spec: `update_external_trie_blob` replaces the record's
BlobLocation and compression tag; the inline representation is emptied (the
spec's post-export vacuum frees "the now-mostly-empty inline storage",
section 4.6). -/
def exportedRecord (offset length : Nat) (comp : Option BlobCompressionResult)
    (r : TrieBlobRecord) : TrieBlobRecord :=
  { r with externLoc := Option.some (offset, length, tagOf comp),
           inlineBlob := Option.some [] }

def update_external_trie_blob (db : MetadataDB) (_bhh : Nat) (offset length : Nat)
    (comp : Option BlobCompressionResult) (id : Nat) : MetadataDB :=
  { db with records := db.records.map (fun p =>
      if p.1 = id then (p.1, exportedRecord offset length comp p.2) else p) }

/-- Modelled from the spec: `update_external_trie_blob` variant used after
compression, replacing the BlobLocation and compression tag only. -/
def update_external_trie_blob_after_compression (db : MetadataDB) (id : Nat)
    (offset length : Nat) (alg : TrieBlobCompression) : MetadataDB :=
  { db with records := db.records.map (fun p =>
      if p.1 = id then
        (p.1, { p.2 with externLoc := Option.some (offset, length, alg) })
      else p) }

/-- Modelled from the spec:
`get_uncompressed_external_trie_blobs(limit) -> list of (blockId, offset,
length)`: the externally stored blobs whose tag is still `None`. -/
def get_uncompressed_external_trie_blobs (db : MetadataDB) (limit : Nat) :
    List (Nat × Nat × Nat) :=
  ((db.records.filterMap (fun p =>
      match p.2.externLoc with
      | Option.some (o, l, TrieBlobCompression.none) => Option.some (p.1, o, l)
      | _ => Option.none))).take limit

/-- Modelled from the spec: `get_external_blobs_length() -> u64`, the next
append offset: the end of the furthest recorded BlobLocation. -/
def get_external_blobs_length (db : MetadataDB) : Nat :=
  db.records.foldl (fun acc p =>
    match p.2.externLoc with
    | Option.some (o, l, _) => max acc (o + l)
    | Option.none => acc) 0

/-- Modelled from the spec: `open_trie_blob_readonly` plus `read_to_end`,
i.e. `TrieFile::read_trie_blob_from_db`: the inline (v1) bytes of a block. -/
def read_trie_blob_from_db (db : MetadataDB) (id : Nat) : Except MarfError (List Nat) :=
  match lookupRecord db id with
  | Option.none => Except.error MarfError.notFound
  | Option.some r =>
    match r.inlineBlob with
    | Option.none => Except.error MarfError.dbError
    | Option.some b => Except.ok b

end trie_sql

/-! ## Blob backends -/

/-- Write `buf` into `contents` at position `pos`, zero-padding any gap
between the current end of file and `pos` (POSIX seek-past-end + write). -/
def writeAt (contents : List Nat) (pos : Nat) (buf : List Nat) : List Nat :=
  let padded := contents ++ List.replicate (pos - contents.length) 0
  padded.take pos ++ buf ++ padded.drop (pos + buf.length)

/-- `TrieFileDisk`: file contents and cursor, the file path, the offset
cache, the 255-entry decompressed LRU (most recently used first), and the
single-slot current-trie fast path (`current_trie` carries the decompressed
bytes and the cursor position within them). -/
structure TrieFileDisk where
  contents : List Nat
  pos : Nat
  path : String
  trie_offsets : List (Nat × TrieIdOffset)
  decompressed_lru : List (Nat × List Nat)
  current_trie : Option (List Nat × Nat)
  current_block_id : Option Nat
deriving DecidableEq, Repr

/-- `TrieFileRAM`: growable in-memory buffer with cursor, read-only flag and
offset cache. -/
structure TrieFileRAM where
  contents : List Nat
  pos : Nat
  readonly : Bool
  trie_offsets : List (Nat × TrieIdOffset)
deriving DecidableEq, Repr

/-- `TrieFile`: the two backend variants. -/
inductive TrieFile
  | RAM : TrieFileRAM → TrieFile
  | Disk : TrieFileDisk → TrieFile
deriving DecidableEq, Repr

/-- LRU `put` with capacity 255 (the capacity `new_disk` passes to
`LruCache::new`): insert or refresh as most recently used, evicting the
least recently used entry beyond the capacity. -/
def lruPut (c : List (Nat × List Nat)) (k : Nat) (v : List Nat) :
    List (Nat × List Nat) :=
  ((k, v) :: c.filter (fun p => ¬ (p.1 = k))).take 255

/-- LRU `get`: on a hit, return the value and the cache with the entry
refreshed to most recently used. -/
def lruGetMove (c : List (Nat × List Nat)) (k : Nat) :
    Option (List Nat × List (Nat × List Nat)) :=
  match c.find? (fun p => p.1 = k) with
  | Option.some p => Option.some (p.2, p :: c.filter (fun q => ¬ (q.1 = k)))
  | Option.none => Option.none

namespace TrieFile

/-- `TrieFile::new_disk` (file assumed not yet present, so empty). -/
def new_disk (path : String) (_readonly : Bool) : TrieFile :=
  TrieFile.Disk
    { contents := [], pos := 0, path := path, trie_offsets := [],
      decompressed_lru := [], current_trie := Option.none,
      current_block_id := Option.none }

/-- `TrieFile::new_ram`. -/
def new_ram (readonly : Bool) : TrieFile :=
  TrieFile.RAM { contents := [], pos := 0, readonly := readonly, trie_offsets := [] }

/-- `TrieFile::from_db_path`: the sentinel selects the RAM backend, any
other path a disk backend at path plus the blobs suffix. -/
def from_db_path (path : String) (readonly : Bool) : TrieFile :=
  if path = memSentinel then new_ram readonly
  else new_disk (path ++ ".blobs") readonly

/-- `TrieFile::get_path`. -/
def get_path (tf : TrieFile) : String :=
  match tf with
  | TrieFile.RAM _ => memSentinel
  | TrieFile.Disk disk => disk.path

/-- The backing byte container of either variant. -/
def getContents (tf : TrieFile) : List Nat :=
  match tf with
  | TrieFile.RAM ram => ram.contents
  | TrieFile.Disk disk => disk.contents

/-- Set the cursor of either variant (`Seek::seek`). -/
def setPos (tf : TrieFile) (p : Nat) : TrieFile :=
  match tf with
  | TrieFile.RAM ram => TrieFile.RAM { ram with pos := p }
  | TrieFile.Disk disk => TrieFile.Disk { disk with pos := p }

/-- Write at the current cursor (`Write::write_all`), advancing it. -/
def writeAllAtPos (tf : TrieFile) (buf : List Nat) : TrieFile :=
  match tf with
  | TrieFile.RAM ram =>
    TrieFile.RAM { ram with contents := writeAt ram.contents ram.pos buf,
                            pos := ram.pos + buf.length }
  | TrieFile.Disk disk =>
    TrieFile.Disk { disk with contents := writeAt disk.contents disk.pos buf,
                              pos := disk.pos + buf.length }

/-- `TrieFile::compress_blob`: LZ4 with the 4-byte length prefix, tagged. -/
def compress_blob (buf : List Nat) : BlobCompressionResult :=
  let compressed := lz4CompressPrependSize buf
  { compressed_bytes := compressed, compressed_blob_size := compressed.length,
    compression_algorithm := TrieBlobCompression.lz4 }

/-- `TrieFile::append_trie_blob`: compute the next append offset from the
metadata store's running total, seek there; for RAM write the bytes
verbatim and flush, for Disk compress, write, flush and force a durability
sync; return offset, sizes and compression info. -/
def append_trie_blob (tf : TrieFile) (db : MetadataDB) (buf : List Nat) :
    Outcome (TrieFile × BlobStorageResult) × List FsEvent :=
  let offset := trie_sql.get_external_blobs_length db
  match tf with
  | TrieFile.RAM ram =>
    let ram1 := { ram with contents := writeAt ram.contents offset buf,
                           pos := offset + buf.length }
    (Outcome.ok (TrieFile.RAM ram1,
      { offset := offset, uncompressed_blob_size := buf.length,
        storage_size := buf.length, compression := Option.none }),
     [FsEvent.writeFile memSentinel buf, FsEvent.flushFile memSentinel])
  | TrieFile.Disk disk =>
    let cres := compress_blob buf
    let c := cres.compressed_bytes
    let disk1 := { disk with contents := writeAt disk.contents offset c,
                             pos := offset + c.length }
    (Outcome.ok (TrieFile.Disk disk1,
      { offset := offset, uncompressed_blob_size := buf.length,
        storage_size := c.length, compression := Option.some cres }),
     [FsEvent.writeFile disk.path c, FsEvent.flushFile disk.path,
      FsEvent.syncFile disk.path])

/-- `TrieFile::store_trie_blob`: append, then record a fresh BlockId with
the resulting BlobLocation and compression tag; for disk backends seed the
decompressed LRU with the caller-supplied uncompressed bytes. -/
def store_trie_blob (tf : TrieFile) (db : MetadataDB) (bhh : Nat)
    (buffer : List Nat) : Outcome (TrieFile × MetadataDB × Nat) × List FsEvent :=
  match append_trie_blob tf db buffer with
  | (Outcome.ok (tf1, result), tr) =>
    let wr := trie_sql.write_external_trie_blob db bhh result.offset
      result.storage_size result.compression
    let tf2 :=
      match tf1 with
      | TrieFile.Disk disk =>
        TrieFile.Disk
          { disk with decompressed_lru := lruPut disk.decompressed_lru wr.2 buffer }
      | other => other
    (Outcome.ok (tf2, wr.1, wr.2),
     tr ++ [FsEvent.publishLocation wr.2 result.offset result.storage_size])
  | (Outcome.err e, tr) => (Outcome.err e, tr)
  | (Outcome.panicked m, tr) => (Outcome.panicked m, tr)

end TrieFile

/-! ## Read path: offset cache, decompressed-content cache, node reads -/

/-- A `TriePtr`: node tag and intra-blob offset. -/
structure TriePtr where
  id : Nat
  ptr : Nat
deriving DecidableEq, Repr

/-- `TRIEHASH_ENCODED_SIZE`: a trie hash is 32 bytes. -/
def hashLen : Nat := 32

namespace TrieFileDisk

/-- `TrieFileDisk::get_trie_offset`: in-process offset cache first, then the
metadata store, inserting the result; the mapping is never evicted. -/
def get_trie_offset (disk : TrieFileDisk) (db : MetadataDB) (block_id : Nat) :
    Except MarfError (TrieIdOffset × TrieFileDisk) :=
  match disk.trie_offsets.find? (fun p => p.1 = block_id) with
  | Option.some p => Except.ok (p.2, disk)
  | Option.none =>
    match trie_sql.get_external_trie_offset_length db block_id with
    | Except.error e => Except.error e
    | Except.ok (o, l, _) =>
      let off : TrieIdOffset := { offset := o, length := l }
      Except.ok (off, { disk with trie_offsets := disk.trie_offsets ++ [(block_id, off)] })

/-- `TrieFileDisk::load_trie_blob`: (1) if the single-slot current id equals
`block_id`, return at once; (2) else on an LRU hit make that entry current;
(3) else resolve the BlobLocation, seek, read `length` bytes through the
take adapter, decompress (panicking on failure, the source's `unwrap`),
insert into the LRU and make current. -/
def load_trie_blob (disk : TrieFileDisk) (db : MetadataDB) (block_id : Nat) :
    Outcome TrieFileDisk × List FsEvent :=
  if disk.current_block_id = Option.some block_id then
    (Outcome.ok disk, [])
  else
    match lruGetMove disk.decompressed_lru block_id with
    | Option.some (cached, lru1) =>
      (Outcome.ok { disk with decompressed_lru := lru1,
                              current_block_id := Option.some block_id,
                              current_trie := Option.some (cached, 0) }, [])
    | Option.none =>
      match disk.get_trie_offset db block_id with
      | Except.error e => (Outcome.err e, [])
      | Except.ok (et, disk1) =>
        let buf := (disk1.contents.drop et.offset).take et.length
        match lz4DecompressSizePrepended buf with
        | Option.none =>
          (Outcome.panicked decompressFailedMsg,
           [FsEvent.readFile disk.path et.offset et.length])
        | Option.some d =>
          (Outcome.ok { disk1 with
              pos := et.offset + buf.length,
              decompressed_lru := lruPut disk1.decompressed_lru block_id d,
              current_block_id := Option.some block_id,
              current_trie := Option.some (d, 0) },
           [FsEvent.readFile disk.path et.offset et.length])

end TrieFileDisk

/-- Read `hashLen` bytes at position `p` of a byte buffer
(`read_hash_bytes`), failing on a short read. -/
def readHashBytesAt (bytes : List Nat) (p : Nat) : Except MarfError (List Nat) :=
  if p + hashLen ≤ bytes.length then Except.ok ((bytes.drop p).take hashLen)
  else Except.error MarfError.ioError

namespace TrieFile

/-- `TrieFile::get_trie_offset` (RAM variant inlined: same cache protocol as
the disk variant, spec section 4.3). -/
def get_trie_offset (tf : TrieFile) (db : MetadataDB) (block_id : Nat) :
    Except MarfError (TrieIdOffset × TrieFile) :=
  match tf with
  | TrieFile.Disk disk =>
    match disk.get_trie_offset db block_id with
    | Except.error e => Except.error e
    | Except.ok (off, disk1) => Except.ok (off, TrieFile.Disk disk1)
  | TrieFile.RAM ram =>
    match ram.trie_offsets.find? (fun p => p.1 = block_id) with
    | Option.some p => Except.ok (p.2, TrieFile.RAM ram)
    | Option.none =>
      match trie_sql.get_external_trie_offset_length db block_id with
      | Except.error e => Except.error e
      | Except.ok (o, l, _) =>
        let off : TrieIdOffset := { offset := o, length := l }
        Except.ok (off,
          TrieFile.RAM { ram with trie_offsets := ram.trie_offsets ++ [(block_id, off)] })

/-- `TrieFile::get_node_hash_bytes`: RAM seeks the backend to the blob's
offset plus the pointer and reads the hash bytes; Disk loads the trie blob
(three-tier protocol) and reads the hash from the decompressed buffer. -/
def get_node_hash_bytes (tf : TrieFile) (db : MetadataDB) (block_id : Nat)
    (ptr : TriePtr) : Outcome (TrieFile × List Nat) × List FsEvent :=
  match tf with
  | TrieFile.RAM _ =>
    (match get_trie_offset tf db block_id with
     | Except.error e => (Outcome.err e, [])
     | Except.ok (off, tf1) =>
       let tf2 := tf1.setPos (off.offset + ptr.ptr)
       match readHashBytesAt tf2.getContents (off.offset + ptr.ptr) with
       | Except.error e => (Outcome.err e, [])
       | Except.ok h => (Outcome.ok (tf2.setPos (off.offset + ptr.ptr + hashLen), h), []))
  | TrieFile.Disk disk =>
    match disk.load_trie_blob db block_id with
    | (Outcome.ok disk1, tr) =>
      (match disk1.current_trie with
       | Option.none => (Outcome.panicked unwrapNoneMsg, tr)
       | Option.some (blob, _) =>
         match readHashBytesAt blob ptr.ptr with
         | Except.error e => (Outcome.err e, tr)
         | Except.ok h =>
           (Outcome.ok
             (TrieFile.Disk { disk1 with
                current_trie := Option.some (blob, ptr.ptr + hashLen) }, h), tr))
    | (Outcome.err e, tr) => (Outcome.err e, tr)
    | (Outcome.panicked m, tr) => (Outcome.panicked m, tr)

/-- `TrieFile::read_node_type`, with the node codec (collaborator from
`bits.rs`, not in this subsystem) passed in as `decode`: it receives the
byte buffer, the position and the pointer's node tag. -/
def read_node_type (α : Type) (decode : List Nat → Nat → Nat → Except MarfError α)
    (tf : TrieFile) (db : MetadataDB) (block_id : Nat) (ptr : TriePtr) :
    Outcome (TrieFile × α) × List FsEvent :=
  match tf with
  | TrieFile.RAM _ =>
    (match get_trie_offset tf db block_id with
     | Except.error e => (Outcome.err e, [])
     | Except.ok (off, tf1) =>
       let tf2 := tf1.setPos (off.offset + ptr.ptr)
       match decode tf2.getContents (off.offset + ptr.ptr) ptr.id with
       | Except.error e => (Outcome.err e, [])
       | Except.ok v => (Outcome.ok (tf2, v), []))
  | TrieFile.Disk disk =>
    match disk.load_trie_blob db block_id with
    | (Outcome.ok disk1, tr) =>
      (match disk1.current_trie with
       | Option.none => (Outcome.panicked unwrapNoneMsg, tr)
       | Option.some (blob, _) =>
         match decode blob ptr.ptr ptr.id with
         | Except.error e => (Outcome.err e, tr)
         | Except.ok v =>
           (Outcome.ok
             (TrieFile.Disk { disk1 with current_trie := Option.some (blob, ptr.ptr) },
              v), tr))
    | (Outcome.err e, tr) => (Outcome.err e, tr)
    | (Outcome.panicked m, tr) => (Outcome.panicked m, tr)

/-- `TrieFile::read_node_type_nohash`: same shape with a hash-less codec. -/
def read_node_type_nohash (α : Type)
    (decode : List Nat → Nat → Nat → Except MarfError α)
    (tf : TrieFile) (db : MetadataDB) (block_id : Nat) (ptr : TriePtr) :
    Outcome (TrieFile × α) × List FsEvent :=
  match tf with
  | TrieFile.Disk disk =>
    match disk.load_trie_blob db block_id with
    | (Outcome.ok disk1, tr) =>
      (match disk1.current_trie with
       | Option.none => (Outcome.panicked unwrapNoneMsg, tr)
       | Option.some (blob, _) =>
         match decode blob ptr.ptr ptr.id with
         | Except.error e => (Outcome.err e, tr)
         | Except.ok v =>
           (Outcome.ok
             (TrieFile.Disk { disk1 with current_trie := Option.some (blob, ptr.ptr) },
              v), tr))
    | (Outcome.err e, tr) => (Outcome.err e, tr)
    | (Outcome.panicked m, tr) => (Outcome.panicked m, tr)
  | TrieFile.RAM _ =>
    (match get_trie_offset tf db block_id with
     | Except.error e => (Outcome.err e, [])
     | Except.ok (off, tf1) =>
       let tf2 := tf1.setPos (off.offset + ptr.ptr)
       match decode tf2.getContents (off.offset + ptr.ptr) ptr.id with
       | Except.error e => (Outcome.err e, [])
       | Except.ok v => (Outcome.ok (tf2, v), []))

end TrieFile

/-! ## Migration procedures -/

namespace TrieFile

/-- Body of the `export_trie_blobs` iteration over block ids: skip
unconfirmed and absent ids; for a confirmed id fetch the inline bytes,
compress, seek to the end of the external backend, write and flush, then
update the metadata record to the new BlobLocation and compression tag. -/
def exportLoop (tf : TrieFile) (db : MetadataDB) :
    List Nat → Outcome (TrieFile × MetadataDB) × List FsEvent
  | [] => (Outcome.ok (tf, db), [])
  | block_id :: rest =>
    match trie_sql.is_unconfirmed_block db block_id with
    | Except.ok true => exportLoop tf db rest
    | Except.error MarfError.notFound => exportLoop tf db rest
    | Except.error e => (Outcome.err e, [])
    | Except.ok false =>
      match trie_sql.read_trie_blob_from_db db block_id with
      | Except.error e => (Outcome.err e, [])
      | Except.ok trie_blob =>
        match trie_sql.get_block_hash db block_id with
        | Except.error e => (Outcome.err e, [])
        | Except.ok bhh =>
          let offset := tf.getContents.length
          let cres := compress_blob trie_blob
          let compressed := cres.compressed_bytes
          let tf1 := (tf.setPos offset).writeAllAtPos compressed
          let db1 := trie_sql.update_external_trie_blob db bhh offset
            compressed.length (Option.some cres) block_id
          match exportLoop tf1 db1 rest with
          | (r, tr) =>
            (r, FsEvent.writeFile tf.get_path compressed
                  :: FsEvent.flushFile tf.get_path
                  :: FsEvent.publishLocation block_id offset compressed.length
                  :: tr)

/-- `TrieFile::export_trie_blobs`: abort the process if a partial v1-to-v2
migration is detected; otherwise iterate ids 0 up to and including
`count_blocks`, exporting each confirmed block, then run the best-effort
vacuum (which does not alter the logical metadata state) and mark the
migration complete. -/
def export_trie_blobs (tf : TrieFile) (db : MetadataDB) (_db_path : String) :
    Outcome (TrieFile × MetadataDB) × List FsEvent :=
  if trie_sql.detectPendingMigrationV2 db then
    (Outcome.panicked migrationAbortMsg, [])
  else
    let max_block := trie_sql.count_blocks db
    match exportLoop tf db (List.range (max_block + 1)) with
    | (Outcome.ok (tf1, db1), tr) => (Outcome.ok (tf1, trie_sql.set_migrated db1), tr)
    | (Outcome.err e, tr) => (Outcome.err e, tr)
    | (Outcome.panicked m, tr) => (Outcome.panicked m, tr)

/-- One batch of `compress_trie_blobs`: for each uncompressed blob, seek the
old file to its recorded offset, read exactly its length (an I/O error on a
short read), append it compressed to the new v3 file, and update the
metadata record to the new BlobLocation and the compression algorithm of
the append (the source unwraps the compression result). -/
def compressBatch (tf v3 : TrieFile) (db : MetadataDB) :
    List (Nat × Nat × Nat) → Outcome (TrieFile × TrieFile × MetadataDB) × List FsEvent
  | [] => (Outcome.ok (tf, v3, db), [])
  | (block_id, o, l) :: rest =>
    if o + l ≤ tf.getContents.length then
      let buf := (tf.getContents.drop o).take l
      let tf1 := tf.setPos (o + l)
      let rdEvt := FsEvent.readFile tf.get_path o l
      match append_trie_blob v3 db buf with
      | (Outcome.ok (v3a, result), tr1) =>
        (match result.compression with
         | Option.some cres =>
           let db1 := trie_sql.update_external_trie_blob_after_compression db
             block_id result.offset result.storage_size cres.compression_algorithm
           (match compressBatch tf1 v3a db1 rest with
            | (r, tr2) =>
              (r, rdEvt :: tr1
                    ++ FsEvent.publishLocation block_id result.offset result.storage_size
                    :: tr2))
         | Option.none => (Outcome.panicked unwrapNoneMsg, rdEvt :: tr1))
      | (Outcome.err e, tr1) => (Outcome.err e, rdEvt :: tr1)
      | (Outcome.panicked m, tr1) => (Outcome.panicked m, rdEvt :: tr1)
    else (Outcome.err MarfError.ioError, [])

/-- The `loop` of `compress_trie_blobs`: query up to 1000 uncompressed
blobs; when none remain, mark migrated and stop, otherwise process the
batch and repeat.  Every processed record leaves the uncompressed set, so
the loop runs at most once per record; `fuel` is instantiated generously
enough that the `fuel = 0` case is unreachable. -/
def compressLoop (fuel : Nat) (tf v3 : TrieFile) (db : MetadataDB) :
    Outcome (TrieFile × TrieFile × MetadataDB) × List FsEvent :=
  match fuel with
  | 0 => (Outcome.err MarfError.ioError, [])
  | f + 1 =>
    match trie_sql.get_uncompressed_external_trie_blobs db 1000 with
    | [] => (Outcome.ok (tf, v3, trie_sql.set_migrated db), [])
    | item :: items =>
      match compressBatch tf v3 db (item :: items) with
      | (Outcome.ok (tf1, v3a, db1), tr1) =>
        (match compressLoop f tf1 v3a db1 with
         | (r, tr2) => (r, tr1 ++ tr2))
      | (Outcome.err e, tr1) => (Outcome.err e, tr1)
      | (Outcome.panicked m, tr1) => (Outcome.panicked m, tr1)

/-- `TrieFile::compress_trie_blobs`: abort the process if a partial
v2-to-v3 migration is detected; if no uncompressed blobs remain, mark
migrated and return; otherwise create a brand-new backing file at the v3
path and recompress batches of 1000 until none remain.  The v3 file handle
is dropped at the end: the store keeps its original backend. -/
def compress_trie_blobs (tf : TrieFile) (db : MetadataDB) :
    Outcome (TrieFile × MetadataDB) × List FsEvent :=
  if trie_sql.detectPendingMigrationV3 db then
    (Outcome.panicked migrationAbortMsg, [])
  else
    match trie_sql.get_uncompressed_external_trie_blobs db 1 with
    | [] => (Outcome.ok (tf, trie_sql.set_migrated db), [])
    | _ :: _ =>
      let tmp_path := tf.get_path ++ ".v3"
      let v3 := new_disk tmp_path false
      match compressLoop (db.records.length + 1) tf v3 db with
      | (Outcome.ok (tf1, _v3f, db1), tr) => (Outcome.ok (tf1, db1), tr)
      | (Outcome.err e, tr) => (Outcome.err e, tr)
      | (Outcome.panicked m, tr) => (Outcome.panicked m, tr)

end TrieFile

/-! ## Trace predicates -/

/-- Is the event a publication of a BlobLocation to the metadata store? -/
def isPublishEvt (e : FsEvent) : Bool :=
  match e with
  | FsEvent.publishLocation _ _ _ => true
  | _ => false

/-- Is the event a durability sync? -/
def isSyncEvt (e : FsEvent) : Bool :=
  match e with
  | FsEvent.syncFile _ => true
  | _ => false

/-- Does the trace contain a publication? -/
def hasPublish (tr : List FsEvent) : Bool := tr.any isPublishEvt

/-- Scan a trace carrying whether a sync of path `p` has been seen; fail on
any publication not preceded by one. -/
def syncSeenCheck (p : String) (seen : Bool) : List FsEvent → Bool
  | [] => true
  | e :: rest =>
    match e with
    | FsEvent.publishLocation _ _ _ => seen && syncSeenCheck p seen rest
    | FsEvent.syncFile q => syncSeenCheck p (seen || decide (q = p)) rest
    | _ => syncSeenCheck p seen rest

/-- Whether the sync happened before `p` was seen, threaded through `a`. -/
def seenAfter (p : String) (seen : Bool) : List FsEvent → Bool
  | [] => seen
  | e :: rest =>
    match e with
    | FsEvent.syncFile q => seenAfter p (seen || decide (q = p)) rest
    | _ => seenAfter p seen rest

/-- Every publication in the trace is preceded by a durability sync of the
backend at path `p`. -/
def syncBeforePublishOk (p : String) (tr : List FsEvent) : Bool :=
  syncSeenCheck p false tr

theorem syncSeenCheck_append (p : String) (a b : List FsEvent) :
    ∀ seen, syncSeenCheck p seen (a ++ b)
      = (syncSeenCheck p seen a && syncSeenCheck p (seenAfter p seen a) b) := by
  induction a with
  | nil => intro seen; simp [syncSeenCheck, seenAfter]
  | cons e rest ih =>
    intro seen
    cases e with
    | publishLocation i o l =>
      simp only [List.cons_append, syncSeenCheck, seenAfter, List.append_eq, ih,
        Bool.and_assoc]
    | syncFile q =>
      simp only [List.cons_append, syncSeenCheck, seenAfter, List.append_eq, ih]
    | writeFile q bs =>
      simp only [List.cons_append, syncSeenCheck, seenAfter, List.append_eq, ih]
    | flushFile q =>
      simp only [List.cons_append, syncSeenCheck, seenAfter, List.append_eq, ih]
    | readFile q o l =>
      simp only [List.cons_append, syncSeenCheck, seenAfter, List.append_eq, ih]

/-! ## Small frame and cache lemmas -/

theorem writeAt_eq_append (c buf : List Nat) : writeAt c c.length buf = c ++ buf := by
  simp [writeAt]

theorem set_migrated_of_migrated (db : MetadataDB) (h : db.migrated = true) :
    trie_sql.set_migrated db = db := by
  cases db
  simp_all [trie_sql.set_migrated]

theorem lookupRecord_set_migrated (db : MetadataDB) (j : Nat) :
    trie_sql.lookupRecord (trie_sql.set_migrated db) j = trie_sql.lookupRecord db j := rfl

/-- Keys of an LRU cache, most recently used first. -/
def lruKeys (c : List (Nat × List Nat)) : List Nat := c.map Prod.fst

/-- Value stored in an LRU cache under a key. -/
def lruLookup (c : List (Nat × List Nat)) (k : Nat) : Option (List Nat) :=
  (c.find? (fun p => p.1 = k)).map Prod.snd

theorem lruPut_length_le (c : List (Nat × List Nat)) (k : Nat) (v : List Nat) :
    (lruPut c k v).length ≤ 255 := by
  simp only [lruPut]
  exact le_trans (List.length_take_le _ _) (le_refl _)

theorem lruPut_head (c : List (Nat × List Nat)) (k : Nat) (v : List Nat) :
    (lruPut c k v).head? = Option.some (k, v) := by
  simp [lruPut, List.take_succ_cons]

theorem lruGetMove_head (c : List (Nat × List Nat)) (k : Nat) (v : List Nat)
    (c1 : List (Nat × List Nat)) (h : lruGetMove c k = Option.some (v, c1)) :
    c1.head? = Option.some (k, v) := by
  simp only [lruGetMove] at h
  cases hf : c.find? (fun p => p.1 = k) with
  | none => rw [hf] at h; exact absurd h (by simp)
  | some p =>
    rw [hf] at h
    have hk : p.1 = k := by
      have := List.find?_some hf
      simpa using this
    simp only [Option.some.injEq, Prod.mk.injEq] at h
    obtain ⟨hv, hc⟩ := h
    subst hc
    simp only [List.head?_cons, Option.some.injEq]
    exact Prod.ext hk hv

theorem lruGetMove_length (c : List (Nat × List Nat)) (k : Nat) (v : List Nat)
    (c1 : List (Nat × List Nat)) (h : lruGetMove c k = Option.some (v, c1)) :
    c1.length ≤ c.length := by
  simp only [lruGetMove] at h
  cases hf : c.find? (fun p => p.1 = k) with
  | none => rw [hf] at h; exact absurd h (by simp)
  | some p =>
    rw [hf] at h
    simp only [Option.some.injEq, Prod.mk.injEq] at h
    obtain ⟨_, hc⟩ := h
    subst hc
    have hmem : p ∈ c := List.mem_of_find?_eq_some hf
    have hk : p.1 = k := by simpa using List.find?_some hf
    have : (c.filter (fun q => ¬ (q.1 = k))).length < c.length := by
      apply List.length_filter_lt_length_iff_exists.mpr
      refine ⟨p, hmem, ?_⟩
      simp [hk]
    simp only [List.length_cons]
    omega

theorem lruGetMove_none_of_not_mem (c : List (Nat × List Nat)) (k : Nat)
    (h : k ∉ lruKeys c) : lruGetMove c k = Option.none := by
  simp only [lruGetMove]
  have : c.find? (fun p => p.1 = k) = Option.none := by
    apply List.find?_eq_none.mpr
    intro p hp
    simp only [decide_eq_true_eq]
    intro hk
    exact h (by simpa [lruKeys, hk] using List.mem_map_of_mem Prod.fst hp)
  simp [this]

theorem filter_ne_key_of_not_mem (c : List (Nat × List Nat)) (k : Nat)
    (h : k ∉ lruKeys c) : c.filter (fun p => ¬ (p.1 = k)) = c := by
  apply List.filter_eq_self.mpr
  intro p hp
  have hne : p.1 ≠ k := by
    intro hk
    exact h (by simpa [lruKeys, hk] using List.mem_map_of_mem Prod.fst hp)
  simpa using hne

theorem lruPut_keys_fresh (c : List (Nat × List Nat)) (k : Nat) (v : List Nat)
    (h : k ∉ lruKeys c) : lruKeys (lruPut c k v) = (k :: lruKeys c).take 255 := by
  rw [lruPut, filter_ne_key_of_not_mem c k h]
  simp [lruKeys, List.map_take]

/-! ## Concrete fixtures -/

/-- A one-block pre-migration metadata store: block 0 confirmed, inline
bytes `[1, 2, 3]`, no external location yet. -/
def oneBlockDb : MetadataDB :=
  { records := [(0,
      { blockHash := 7, unconfirmed := false, inlineBlob := Option.some [1, 2, 3],
        externLoc := Option.none })],
    nextId := 1, migrated := false, pendingMigrationV2 := false,
    pendingMigrationV3 := false }

/-- A fresh disk-backed store at path `p.blobs`. -/
def emptyDiskP : TrieFile := TrieFile.new_disk "p.blobs" false

/-- A metadata store with both partial-migration markers set. -/
def flaggedDb : MetadataDB :=
  { records := [], nextId := 0, migrated := false, pendingMigrationV2 := true,
    pendingMigrationV3 := true }

/-! ## Loop trace lemmas -/

theorem exportLoop_no_sync (ids : List Nat) :
    ∀ (tf : TrieFile) (db : MetadataDB),
      ((TrieFile.exportLoop tf db ids).2.all (fun e => !(isSyncEvt e))) = true := by
  induction ids with
  | nil => intro tf db; simp [TrieFile.exportLoop]
  | cons i rest ih =>
    intro tf db
    simp only [TrieFile.exportLoop]
    cases h1 : trie_sql.is_unconfirmed_block db i with
    | ok b =>
      cases b with
      | true => dsimp only; exact ih tf db
      | false =>
        cases h2 : trie_sql.read_trie_blob_from_db db i with
        | error e => dsimp only; simp
        | ok blob =>
          cases h3 : trie_sql.get_block_hash db i with
          | error e => dsimp only; simp
          | ok bhh =>
            dsimp only
            have h := ih
              ((tf.setPos tf.getContents.length).writeAllAtPos
                (TrieFile.compress_blob blob).compressed_bytes)
              (trie_sql.update_external_trie_blob db bhh tf.getContents.length
                (TrieFile.compress_blob blob).compressed_bytes.length
                (Option.some (TrieFile.compress_blob blob)) i)
            simp only [List.all_eq_true] at h ⊢
            intro x hx
            simp only [List.mem_cons] at hx
            rcases hx with hx | hx | hx | hx
            · subst hx; rfl
            · subst hx; rfl
            · subst hx; rfl
            · exact h x hx
    | error e =>
      cases e with
      | notFound => dsimp only; exact ih tf db
      | dbError => dsimp only; simp
      | ioError => dsimp only; simp

theorem getContents_setPos (tf : TrieFile) (p : Nat) :
    (tf.setPos p).getContents = tf.getContents := by
  cases tf <;> rfl

theorem get_path_setPos (tf : TrieFile) (p : Nat) :
    (tf.setPos p).get_path = tf.get_path := by
  cases tf <;> rfl

theorem compressBatch_sync_ok (items : List (Nat × Nat × Nat)) :
    ∀ (tf : TrieFile) (v : TrieFileDisk) (db : MetadataDB) (seen : Bool),
      syncSeenCheck v.path seen
        (TrieFile.compressBatch tf (TrieFile.Disk v) db items).2 = true := by
  induction items with
  | nil => intro tf v db seen; simp [TrieFile.compressBatch, syncSeenCheck]
  | cons item rest ih =>
    intro tf v db seen
    obtain ⟨bid, o, l⟩ := item
    simp only [TrieFile.compressBatch]
    by_cases hb : o + l ≤ tf.getContents.length
    · rw [if_pos hb]
      dsimp only [TrieFile.append_trie_blob]
      simp only [syncSeenCheck, List.cons_append, List.nil_append]
      simp only [decide_eq_true_eq, eq_self_iff_true, decide_True, Bool.or_true,
        Bool.true_and]
      exact ih (tf.setPos (o + l))
        { v with
          contents := writeAt v.contents (trie_sql.get_external_blobs_length db)
            (TrieFile.compress_blob ((tf.getContents.drop o).take l)).compressed_bytes,
          pos := trie_sql.get_external_blobs_length db
            + (TrieFile.compress_blob ((tf.getContents.drop o).take l)).compressed_bytes.length }
        (trie_sql.update_external_trie_blob_after_compression db bid
          (trie_sql.get_external_blobs_length db)
          (TrieFile.compress_blob ((tf.getContents.drop o).take l)).compressed_bytes.length
          (TrieFile.compress_blob ((tf.getContents.drop o).take l)).compression_algorithm)
        true
    · rw [if_neg hb]
      simp [syncSeenCheck]

theorem compressBatch_frame (items : List (Nat × Nat × Nat)) :
    ∀ (tf : TrieFile) (v : TrieFileDisk) (db : MetadataDB),
      (∀ e ∈ (TrieFile.compressBatch tf (TrieFile.Disk v) db items).2,
         ∀ q bs, e = FsEvent.writeFile q bs → q = v.path) ∧
      (∀ tf1 v31 db1,
         (TrieFile.compressBatch tf (TrieFile.Disk v) db items).1
           = Outcome.ok (tf1, v31, db1) →
         (∃ v1, v31 = TrieFile.Disk v1 ∧ v1.path = v.path) ∧
         tf1.getContents = tf.getContents ∧ tf1.get_path = tf.get_path ∧
         (∀ d, tf = TrieFile.Disk d →
            ∃ d1, tf1 = TrieFile.Disk d1 ∧ d1.contents = d.contents ∧
              d1.path = d.path)) := by
  induction items with
  | nil =>
    intro tf v db
    constructor
    · intro e he
      simp [TrieFile.compressBatch] at he
    · intro tf1 v31 db1 h
      simp only [TrieFile.compressBatch, Outcome.ok.injEq, Prod.mk.injEq] at h
      obtain ⟨h1, h2, h3⟩ := h
      subst h1; subst h2; subst h3
      refine ⟨⟨v, rfl, rfl⟩, rfl, rfl, ?_⟩
      intro d hd
      exact ⟨d, hd, rfl, rfl⟩
  | cons item rest ih =>
    intro tf v db
    obtain ⟨bid, o, l⟩ := item
    by_cases hb : o + l ≤ tf.getContents.length
    · have hih := ih (tf.setPos (o + l))
        { v with
          contents := writeAt v.contents (trie_sql.get_external_blobs_length db)
            (TrieFile.compress_blob ((tf.getContents.drop o).take l)).compressed_bytes,
          pos := trie_sql.get_external_blobs_length db
            + (TrieFile.compress_blob ((tf.getContents.drop o).take l)).compressed_bytes.length }
        (trie_sql.update_external_trie_blob_after_compression db bid
          (trie_sql.get_external_blobs_length db)
          (TrieFile.compress_blob ((tf.getContents.drop o).take l)).compressed_bytes.length
          (TrieFile.compress_blob ((tf.getContents.drop o).take l)).compression_algorithm)
      constructor
      · intro e he q bs heq
        simp only [TrieFile.compressBatch, if_pos hb] at he
        dsimp only [TrieFile.append_trie_blob] at he
        simp only [List.mem_cons, List.cons_append, List.nil_append,
          List.mem_append] at he
        rcases he with he | he | he | he | he | he
        · subst he; exact FsEvent.noConfusion heq
        · subst he
          injection heq with hq _
          exact hq.symm
        · subst he; exact FsEvent.noConfusion heq
        · subst he; exact FsEvent.noConfusion heq
        · subst he; exact FsEvent.noConfusion heq
        · exact hih.1 _ he _ _ heq
      · intro tf1 v31 db1 h
        simp only [TrieFile.compressBatch, if_pos hb] at h
        dsimp only [TrieFile.append_trie_blob] at h
        have hres := hih.2 tf1 v31 db1 h
        obtain ⟨⟨v1, hv1, hv1p⟩, hc, hp, hd⟩ := hres
        refine ⟨⟨v1, hv1, hv1p⟩, ?_, ?_, ?_⟩
        · rw [hc, getContents_setPos]
        · rw [hp, get_path_setPos]
        · intro d hdd
          subst hdd
          obtain ⟨d1, hd1, hd1c, hd1p⟩ := hd { d with pos := o + l } rfl
          exact ⟨d1, hd1, hd1c, hd1p⟩
    · constructor
      · intro e he
        simp [TrieFile.compressBatch, if_neg hb] at he
      · intro tf1 v31 db1 h
        simp [TrieFile.compressBatch, if_neg hb] at h

theorem compressLoop_sync_ok (fuel : Nat) :
    ∀ (tf : TrieFile) (v : TrieFileDisk) (db : MetadataDB) (seen : Bool),
      syncSeenCheck v.path seen
        (TrieFile.compressLoop fuel tf (TrieFile.Disk v) db).2 = true := by
  induction fuel with
  | zero => intro tf v db seen; simp [TrieFile.compressLoop, syncSeenCheck]
  | succ f ih =>
    intro tf v db seen
    simp only [TrieFile.compressLoop]
    cases hu : trie_sql.get_uncompressed_external_trie_blobs db 1000 with
    | nil => simp [syncSeenCheck]
    | cons item items =>
      dsimp only
      cases hbatch : TrieFile.compressBatch tf (TrieFile.Disk v) db (item :: items) with
      | mk r tr1 =>
        have hsync := compressBatch_sync_ok (item :: items) tf v db
        rw [hbatch] at hsync
        cases r with
        | ok res =>
          obtain ⟨tf1, v31, db1⟩ := res
          have hframe := (compressBatch_frame (item :: items) tf v db).2 tf1 v31 db1
            (by rw [hbatch])
          obtain ⟨⟨v1, hv1, hv1p⟩, _, _, _⟩ := hframe
          subst hv1
          dsimp only
          rw [syncSeenCheck_append]
          have h2 := ih tf1 v1 db1 (seenAfter v.path seen tr1)
          rw [hv1p] at h2
          simp [hsync seen, h2]
        | err e => exact hsync seen
        | panicked m => exact hsync seen

theorem compressLoop_frame (fuel : Nat) :
    ∀ (tf : TrieFile) (v : TrieFileDisk) (db : MetadataDB),
      (∀ e ∈ (TrieFile.compressLoop fuel tf (TrieFile.Disk v) db).2,
         ∀ q bs, e = FsEvent.writeFile q bs → q = v.path) ∧
      (∀ tf1 v31 db1,
         (TrieFile.compressLoop fuel tf (TrieFile.Disk v) db).1
           = Outcome.ok (tf1, v31, db1) →
         tf1.getContents = tf.getContents ∧ tf1.get_path = tf.get_path ∧
         (∀ d, tf = TrieFile.Disk d →
            ∃ d1, tf1 = TrieFile.Disk d1 ∧ d1.contents = d.contents ∧
              d1.path = d.path)) := by
  induction fuel with
  | zero =>
    intro tf v db
    constructor
    · intro e he; simp [TrieFile.compressLoop] at he
    · intro tf1 v31 db1 h; simp [TrieFile.compressLoop] at h
  | succ f ih =>
    intro tf v db
    simp only [TrieFile.compressLoop]
    cases hu : trie_sql.get_uncompressed_external_trie_blobs db 1000 with
    | nil =>
      constructor
      · intro e he; simp at he
      · intro tf1 v31 db1 h
        simp only [Outcome.ok.injEq, Prod.mk.injEq] at h
        obtain ⟨h1, _, _⟩ := h
        subst h1
        exact ⟨rfl, rfl, fun d hd => ⟨d, hd, rfl, rfl⟩⟩
    | cons item items =>
      dsimp only
      cases hbatch : TrieFile.compressBatch tf (TrieFile.Disk v) db (item :: items) with
      | mk r tr1 =>
        have hbf := compressBatch_frame (item :: items) tf v db
        cases r with
        | ok res =>
          obtain ⟨tfa, v3a, dba⟩ := res
          have hframe := hbf.2 tfa v3a dba (by rw [hbatch])
          obtain ⟨⟨v1, hv1, hv1p⟩, hca, hpa, hda⟩ := hframe
          subst hv1
          dsimp only
          have hlf := ih tfa v1 dba
          constructor
          · intro e he q bs heq
            simp only [List.mem_append] at he
            rcases he with he | he
            · exact hbf.1 e (by rw [hbatch]; exact he) q bs heq
            · rw [← hv1p]
              exact hlf.1 e he q bs heq
          · intro tf1 v31 db1 h
            have hres := hlf.2 tf1 v31 db1 h
            obtain ⟨hc1, hp1, hd1⟩ := hres
            refine ⟨by rw [hc1, hca], by rw [hp1, hpa], ?_⟩
            intro d hd
            obtain ⟨da, hda1, hdac, hdap⟩ := hda d hd
            obtain ⟨d1, hd11, hd1c, hd1p⟩ := hd1 da hda1
            exact ⟨d1, hd11, by rw [hd1c, hdac], by rw [hd1p, hdap]⟩
        | err e =>
          constructor
          · intro ev he q bs heq
            exact hbf.1 ev (by rw [hbatch]; exact he) q bs heq
          · intro tf1 v31 db1 h
            exact absurd h (by simp)
        | panicked m =>
          constructor
          · intro ev he q bs heq
            exact hbf.1 ev (by rw [hbatch]; exact he) q bs heq
          · intro tf1 v31 db1 h
            exact absurd h (by simp)

/-! ## Claim C3 -/

/-- The store of `emptyDiskP` after a first successful `export_trie_blobs`
against `oneBlockDb`. -/
def oneBlockTf1 : TrieFile := TrieFile.Disk
  { contents := [3, 0, 0, 0, 48, 1, 2, 3], pos := 8, path := "p.blobs",
    trie_offsets := [], decompressed_lru := [], current_trie := Option.none,
    current_block_id := Option.none }

/-- The metadata store of `oneBlockDb` after that first export. -/
def oneBlockDb1 : MetadataDB :=
  { records := [(0,
      { blockHash := 7, unconfirmed := false, inlineBlob := Option.some [],
        externLoc := Option.some (0, 8, TrieBlobCompression.lz4) })],
    nextId := 1, migrated := true, pendingMigrationV2 := false,
    pendingMigrationV3 := false }

/-- C3 counterexample: `export_trie_blobs` has no completed-migration guard,
so invoking it a second time after a successful completion re-compresses
and re-appends every confirmed block: the backend grows and the metadata
record is rewritten to a new BlobLocation — not a no-op. -/
theorem C3_counterexample :
    (TrieFile.export_trie_blobs emptyDiskP oneBlockDb "p").1
      = Outcome.ok (oneBlockTf1, oneBlockDb1) ∧
    (∃ tf2 db2 tr2,
      TrieFile.export_trie_blobs oneBlockTf1 oneBlockDb1 "p"
        = (Outcome.ok (tf2, db2), tr2) ∧
      tf2.getContents ≠ oneBlockTf1.getContents ∧ db2 ≠ oneBlockDb1) := by
  refine ⟨by decide,
    ⟨TrieFile.Disk
      { contents := [3, 0, 0, 0, 48, 1, 2, 3, 0, 0, 0, 0, 0], pos := 13,
        path := "p.blobs", trie_offsets := [], decompressed_lru := [],
        current_trie := Option.none, current_block_id := Option.none },
     { records := [(0,
        { blockHash := 7, unconfirmed := false, inlineBlob := Option.some [],
          externLoc := Option.some (8, 5, TrieBlobCompression.lz4) })],
       nextId := 1, migrated := true, pendingMigrationV2 := false,
       pendingMigrationV3 := false },
     [FsEvent.writeFile "p.blobs" [0, 0, 0, 0, 0], FsEvent.flushFile "p.blobs",
      FsEvent.publishLocation 0 8 5],
     by decide, by decide, by decide⟩⟩

/-- C3 (amended): re-running `compress_trie_blobs` after a successful
completion (no partial-migration marker, migration marked complete, no
uncompressed blobs left) is a no-op: no appends, no events, and the store
and metadata are returned unchanged.  The corresponding property fails for
`export_trie_blobs`, which re-exports every confirmed block
(see the counterexample). -/
theorem C3_compress_idempotent (tf : TrieFile) (db : MetadataDB)
    (h3 : db.pendingMigrationV3 = false) (hm : db.migrated = true)
    (hu : trie_sql.get_uncompressed_external_trie_blobs db 1 = []) :
    TrieFile.compress_trie_blobs tf db = (Outcome.ok (tf, db), []) := by
  dsimp only [TrieFile.compress_trie_blobs]
  have hd : ¬ (trie_sql.detectPendingMigrationV3 db = true) := by
    simp [trie_sql.detectPendingMigrationV3, h3]
  rw [if_neg hd, hu]
  dsimp only
  rw [set_migrated_of_migrated db hm]

/-- C3 witness: the no-op re-run at the concrete post-export state. -/
theorem C3_compress_idempotent_witness :
    TrieFile.compress_trie_blobs oneBlockTf1 oneBlockDb1
      = (Outcome.ok (oneBlockTf1, oneBlockDb1), []) :=
  C3_compress_idempotent oneBlockTf1 oneBlockDb1 rfl rfl (by decide)

/-! ## Claim C10 -/

/-- C10: after a successful `compress_trie_blobs`, the store keeps its
original backend: the handle is still the disk variant with the original
path and unchanged contents, and every write event of the run targets only
the separate file at the original path plus the v3 suffix. -/
theorem C10_compress_keeps_backend (disk : TrieFileDisk) (db : MetadataDB)
    (tf1 : TrieFile) (db1 : MetadataDB) (tr : List FsEvent)
    (h : TrieFile.compress_trie_blobs (TrieFile.Disk disk) db
      = (Outcome.ok (tf1, db1), tr)) :
    tf1.get_path = disk.path ∧
    (∃ d1, tf1 = TrieFile.Disk d1 ∧ d1.contents = disk.contents ∧
      d1.path = disk.path) ∧
    (∀ e ∈ tr, ∀ q bs, e = FsEvent.writeFile q bs → q = disk.path ++ ".v3") := by
  dsimp only [TrieFile.compress_trie_blobs, TrieFile.get_path] at h
  by_cases h3 : trie_sql.detectPendingMigrationV3 db = true
  · rw [if_pos h3] at h
    exact absurd h (by simp)
  · rw [if_neg h3] at h
    cases hu : trie_sql.get_uncompressed_external_trie_blobs db 1 with
    | nil =>
      rw [hu] at h
      dsimp only at h
      simp only [Prod.mk.injEq, Outcome.ok.injEq] at h
      obtain ⟨⟨h1, h2⟩, h4⟩ := h
      subst h2
      subst h4
      rw [← h1]
      exact ⟨rfl, ⟨disk, rfl, rfl, rfl⟩, by intro e he; exact absurd he (by simp)⟩
    | cons a as =>
      rw [hu] at h
      dsimp only at h
      have hframe := compressLoop_frame (db.records.length + 1) (TrieFile.Disk disk)
        { contents := [], pos := 0, path := disk.path ++ ".v3", trie_offsets := [],
          decompressed_lru := [], current_trie := Option.none,
          current_block_id := Option.none } db
      cases hloop : TrieFile.compressLoop (db.records.length + 1) (TrieFile.Disk disk)
          (TrieFile.new_disk (disk.path ++ ".v3") false) db with
      | mk r trl =>
        have hloop2 : TrieFile.compressLoop (db.records.length + 1) (TrieFile.Disk disk)
            (TrieFile.Disk
              { contents := [], pos := 0, path := disk.path ++ ".v3",
                trie_offsets := [], decompressed_lru := [],
                current_trie := Option.none, current_block_id := Option.none }) db
            = (r, trl) := hloop
        rw [hloop] at h
        cases r with
        | ok res =>
          obtain ⟨tfa, v3a, dba⟩ := res
          dsimp only at h
          simp only [Prod.mk.injEq, Outcome.ok.injEq] at h
          obtain ⟨⟨ha, hb⟩, hc⟩ := h
          subst ha
          subst hb
          subst hc
          have hres := hframe.2 tfa v3a dba (by rw [hloop2])
          obtain ⟨hcont, hpath, hdisk⟩ := hres
          obtain ⟨d1, hd1, hd1c, hd1p⟩ := hdisk disk rfl
          refine ⟨?_, ⟨d1, hd1, hd1c, hd1p⟩, ?_⟩
          · rw [hd1]
            exact hd1p
          · intro e he q bs heq
            exact hframe.1 e (by rw [hloop2]; exact he) q bs heq
        | err e =>
          dsimp only at h
          exact absurd h (by simp)
        | panicked m =>
          dsimp only at h
          exact absurd h (by simp)

/-- A disk store holding one raw (uncompressed) 3-byte blob. -/
def rawBlobDisk : TrieFileDisk :=
  { contents := [9, 9, 9], pos := 0, path := "q.blobs", trie_offsets := [],
    decompressed_lru := [], current_trie := Option.none,
    current_block_id := Option.none }

/-- Metadata referencing that raw blob with the `None` compression tag. -/
def rawBlobDb : MetadataDB :=
  { records := [(0,
      { blockHash := 9, unconfirmed := false, inlineBlob := Option.none,
        externLoc := Option.some (0, 3, TrieBlobCompression.none) })],
    nextId := 1, migrated := false, pendingMigrationV2 := false,
    pendingMigrationV3 := false }

/-- The store after the compression run (cursor moved by the read). -/
def rawBlobDisk1 : TrieFile := TrieFile.Disk
  { contents := [9, 9, 9], pos := 3, path := "q.blobs", trie_offsets := [],
    decompressed_lru := [], current_trie := Option.none,
    current_block_id := Option.none }

/-- The metadata after the compression run: record moved to the v3 file. -/
def rawBlobDb1 : MetadataDB :=
  { records := [(0,
      { blockHash := 9, unconfirmed := false, inlineBlob := Option.none,
        externLoc := Option.some (3, 8, TrieBlobCompression.lz4) })],
    nextId := 1, migrated := true, pendingMigrationV2 := false,
    pendingMigrationV3 := false }

/-- The event trace of the compression run. -/
def rawBlobTr : List FsEvent :=
  [FsEvent.readFile "q.blobs" 0 3,
   FsEvent.writeFile "q.blobs.v3" [3, 0, 0, 0, 48, 9, 9, 9],
   FsEvent.flushFile "q.blobs.v3", FsEvent.syncFile "q.blobs.v3",
   FsEvent.publishLocation 0 3 8]

/-- C10 witness: a concrete successful compression run, with the frame
conclusions obtained from the theorem. -/
theorem C10_compress_keeps_backend_witness :
    TrieFile.compress_trie_blobs (TrieFile.Disk rawBlobDisk) rawBlobDb
      = (Outcome.ok (rawBlobDisk1, rawBlobDb1), rawBlobTr) ∧
    rawBlobDisk1.get_path = rawBlobDisk.path := by
  refine ⟨by decide, ?_⟩
  exact (C10_compress_keeps_backend rawBlobDisk rawBlobDb rawBlobDisk1 rawBlobDb1
    rawBlobTr (by decide)).1

/-! ## Read-path lemmas -/

theorem get_trie_offset_frame (disk : TrieFileDisk) (db : MetadataDB) (id : Nat)
    (et : TrieIdOffset) (disk1 : TrieFileDisk)
    (h : disk.get_trie_offset db id = Except.ok (et, disk1)) :
    disk1.contents = disk.contents ∧ disk1.pos = disk.pos ∧
    disk1.path = disk.path ∧
    disk1.decompressed_lru = disk.decompressed_lru ∧
    disk1.current_trie = disk.current_trie ∧
    disk1.current_block_id = disk.current_block_id := by
  dsimp only [TrieFileDisk.get_trie_offset] at h
  cases hf : disk.trie_offsets.find? (fun p => p.1 = id) with
  | some p =>
    rw [hf] at h
    simp only [Except.ok.injEq, Prod.mk.injEq] at h
    obtain ⟨_, h2⟩ := h
    subst h2
    exact ⟨rfl, rfl, rfl, rfl, rfl, rfl⟩
  | none =>
    rw [hf] at h
    cases hdb : trie_sql.get_external_trie_offset_length db id with
    | error e => rw [hdb] at h; exact absurd h (by simp)
    | ok triple =>
      obtain ⟨o, l, alg⟩ := triple
      rw [hdb] at h
      simp only [Except.ok.injEq, Prod.mk.injEq] at h
      obtain ⟨_, h2⟩ := h
      subst h2
      exact ⟨rfl, rfl, rfl, rfl, rfl, rfl⟩

theorem take_drop_length_eq (c : List Nat) (o l : Nat) (h : o + l ≤ c.length) :
    ((c.drop o).take l).length = l := by
  simp only [List.length_take, List.length_drop]
  omega

/-! ## Claim C5 -/

/-- C5: when the stored bytes of a block fail to decompress, the disk read
path terminates the process: `load_trie_blob` panics with the unwrap
failure, and so do `get_node_hash_bytes`, `read_node_type` and
`read_node_type_nohash`, for any pointer and any node codec. -/
theorem C5_corrupt_payload_fatal (disk : TrieFileDisk) (db : MetadataDB)
    (block_id : Nat) (et : TrieIdOffset) (disk1 : TrieFileDisk)
    (h1 : ¬ disk.current_block_id = Option.some block_id)
    (h2 : lruGetMove disk.decompressed_lru block_id = Option.none)
    (h3 : disk.get_trie_offset db block_id = Except.ok (et, disk1))
    (h4 : lz4DecompressSizePrepended ((disk.contents.drop et.offset).take et.length)
      = Option.none) :
    (disk.load_trie_blob db block_id).1 = Outcome.panicked decompressFailedMsg ∧
    (∀ ptr : TriePtr,
      (TrieFile.get_node_hash_bytes (TrieFile.Disk disk) db block_id ptr).1
        = Outcome.panicked decompressFailedMsg) ∧
    (∀ (α : Type) (decode : List Nat → Nat → Nat → Except MarfError α)
       (ptr : TriePtr),
      (TrieFile.read_node_type α decode (TrieFile.Disk disk) db block_id ptr).1
        = Outcome.panicked decompressFailedMsg) ∧
    (∀ (α : Type) (decode : List Nat → Nat → Nat → Except MarfError α)
       (ptr : TriePtr),
      (TrieFile.read_node_type_nohash α decode (TrieFile.Disk disk) db block_id
        ptr).1 = Outcome.panicked decompressFailedMsg) := by
  have hc : disk1.contents = disk.contents := (get_trie_offset_frame _ _ _ _ _ h3).1
  have hload : disk.load_trie_blob db block_id
      = (Outcome.panicked decompressFailedMsg,
         [FsEvent.readFile disk.path et.offset et.length]) := by
    dsimp only [TrieFileDisk.load_trie_blob]
    rw [if_neg h1, h2, h3]
    dsimp only
    rw [hc, h4]
  refine ⟨by rw [hload], ?_, ?_, ?_⟩
  · intro ptr
    dsimp only [TrieFile.get_node_hash_bytes]
    rw [hload]
  · intro α decode ptr
    dsimp only [TrieFile.read_node_type]
    rw [hload]
  · intro α decode ptr
    dsimp only [TrieFile.read_node_type_nohash]
    rw [hload]

/-- A disk store whose stored bytes for block 0 are corrupt (3 bytes cannot
even hold the 4-byte length prefix). -/
def corruptDisk : TrieFileDisk :=
  { contents := [7, 7, 7], pos := 0, path := "c.blobs", trie_offsets := [],
    decompressed_lru := [], current_trie := Option.none,
    current_block_id := Option.none }

/-- Metadata pointing block 0 at the corrupt byte range. -/
def corruptDb : MetadataDB :=
  { records := [(0,
      { blockHash := 1, unconfirmed := false, inlineBlob := Option.none,
        externLoc := Option.some (0, 3, TrieBlobCompression.lz4) })],
    nextId := 1, migrated := true, pendingMigrationV2 := false,
    pendingMigrationV3 := false }

/-- C5 witness: the panics at the concrete corrupt store. -/
theorem C5_corrupt_payload_fatal_witness :
    (corruptDisk.load_trie_blob corruptDb 0).1
      = Outcome.panicked decompressFailedMsg ∧
    (TrieFile.get_node_hash_bytes (TrieFile.Disk corruptDisk) corruptDb 0
      { id := 0, ptr := 0 }).1 = Outcome.panicked decompressFailedMsg ∧
    (TrieFile.read_node_type Unit (fun _ _ _ => Except.ok ())
      (TrieFile.Disk corruptDisk) corruptDb 0 { id := 0, ptr := 0 }).1
      = Outcome.panicked decompressFailedMsg ∧
    (TrieFile.read_node_type_nohash Unit (fun _ _ _ => Except.ok ())
      (TrieFile.Disk corruptDisk) corruptDb 0 { id := 0, ptr := 0 }).1
      = Outcome.panicked decompressFailedMsg := by
  have h := C5_corrupt_payload_fatal corruptDisk corruptDb 0
    { offset := 0, length := 3 }
    { corruptDisk with trie_offsets := [(0, { offset := 0, length := 3 })] }
    (by decide) (by decide) rfl (by decide)
  exact ⟨h.1, h.2.1 { id := 0, ptr := 0 },
    h.2.2.1 Unit (fun _ _ _ => Except.ok ()) { id := 0, ptr := 0 },
    h.2.2.2 Unit (fun _ _ _ => Except.ok ()) { id := 0, ptr := 0 }⟩

/-! ## Claim C6 -/

theorem store_disk_eq (disk : TrieFileDisk) (db : MetadataDB) (bhh : Nat)
    (buf : List Nat) :
    TrieFile.store_trie_blob (TrieFile.Disk disk) db bhh buf
      = (Outcome.ok (TrieFile.Disk
          { disk with
            contents := writeAt disk.contents
              (trie_sql.get_external_blobs_length db) (lz4CompressPrependSize buf),
            pos := trie_sql.get_external_blobs_length db
              + (lz4CompressPrependSize buf).length,
            decompressed_lru := lruPut disk.decompressed_lru db.nextId buf },
          (trie_sql.write_external_trie_blob db bhh
            (trie_sql.get_external_blobs_length db)
            (lz4CompressPrependSize buf).length
            (Option.some (TrieFile.compress_blob buf))).1,
          db.nextId),
        [FsEvent.writeFile disk.path (lz4CompressPrependSize buf),
         FsEvent.flushFile disk.path, FsEvent.syncFile disk.path,
         FsEvent.publishLocation db.nextId (trie_sql.get_external_blobs_length db)
           (lz4CompressPrependSize buf).length]) := rfl

theorem store_ram_eq (ram : TrieFileRAM) (db : MetadataDB) (bhh : Nat)
    (buf : List Nat) :
    TrieFile.store_trie_blob (TrieFile.RAM ram) db bhh buf
      = (Outcome.ok (TrieFile.RAM
          { ram with
            contents := writeAt ram.contents
              (trie_sql.get_external_blobs_length db) buf,
            pos := trie_sql.get_external_blobs_length db + buf.length },
          (trie_sql.write_external_trie_blob db bhh
            (trie_sql.get_external_blobs_length db) buf.length Option.none).1,
          db.nextId),
        [FsEvent.writeFile memSentinel buf, FsEvent.flushFile memSentinel,
         FsEvent.publishLocation db.nextId (trie_sql.get_external_blobs_length db)
           buf.length]) := rfl

theorem lruLookup_lruPut (c : List (Nat × List Nat)) (k : Nat) (v : List Nat) :
    lruLookup (lruPut c k v) k = Option.some v := by
  rw [lruLookup, lruPut, List.take_succ_cons,
    List.find?_cons_of_pos _ (by simp)]
  rfl

theorem lookupRecord_write_external (db : MetadataDB) (bhh : Nat)
    (off len : Nat) (comp : Option BlobCompressionResult)
    (hfresh : trie_sql.lookupRecord db db.nextId = Option.none) :
    trie_sql.lookupRecord
        (trie_sql.write_external_trie_blob db bhh off len comp).1 db.nextId
      = Option.some
        { blockHash := bhh, unconfirmed := false, inlineBlob := Option.none,
          externLoc := Option.some (off, len, trie_sql.tagOf comp) } := by
  have hf : db.records.find? (fun p => p.1 = db.nextId) = Option.none := by
    dsimp only [trie_sql.lookupRecord] at hfresh
    cases hx : db.records.find? (fun p => p.1 = db.nextId) with
    | none => rfl
    | some p => rw [hx] at hfresh; exact absurd hfresh (by simp)
  dsimp only [trie_sql.lookupRecord, trie_sql.write_external_trie_blob]
  rw [List.find?_append, hf]
  rw [List.find?_cons_of_pos _ (by simp)]
  rfl

/-- C6: `store_trie_blob` appends the buffer to the backend — LZ4-framed for
the disk variant, verbatim for the memory variant — records a fresh BlockId
whose metadata row holds the append offset, the stored length and the
compression tag, and for the disk variant seeds the decompressed LRU with
the caller-supplied uncompressed bytes under that BlockId, before returning
it.  The hypotheses say that the metadata running total agrees with the
backend length (so the write is an append) and that the fresh id is indeed
unused. -/
theorem C6_store_trie_blob (db : MetadataDB) (bhh : Nat) (buf : List Nat)
    (hfresh : trie_sql.lookupRecord db db.nextId = Option.none) :
    (∀ disk : TrieFileDisk,
      trie_sql.get_external_blobs_length db = disk.contents.length →
      ∃ d1 db1,
        TrieFile.store_trie_blob (TrieFile.Disk disk) db bhh buf
          = (Outcome.ok (TrieFile.Disk d1, db1, db.nextId),
             [FsEvent.writeFile disk.path (lz4CompressPrependSize buf),
              FsEvent.flushFile disk.path, FsEvent.syncFile disk.path,
              FsEvent.publishLocation db.nextId disk.contents.length
                (lz4CompressPrependSize buf).length]) ∧
        d1.contents = disk.contents ++ lz4CompressPrependSize buf ∧
        d1.path = disk.path ∧
        lruLookup d1.decompressed_lru db.nextId = Option.some buf ∧
        trie_sql.lookupRecord db1 db.nextId = Option.some
          { blockHash := bhh, unconfirmed := false, inlineBlob := Option.none,
            externLoc := Option.some (disk.contents.length,
              (lz4CompressPrependSize buf).length, TrieBlobCompression.lz4) }) ∧
    (∀ ram : TrieFileRAM,
      trie_sql.get_external_blobs_length db = ram.contents.length →
      ∃ r1 db1,
        TrieFile.store_trie_blob (TrieFile.RAM ram) db bhh buf
          = (Outcome.ok (TrieFile.RAM r1, db1, db.nextId),
             [FsEvent.writeFile memSentinel buf, FsEvent.flushFile memSentinel,
              FsEvent.publishLocation db.nextId ram.contents.length buf.length]) ∧
        r1.contents = ram.contents ++ buf ∧
        trie_sql.lookupRecord db1 db.nextId = Option.some
          { blockHash := bhh, unconfirmed := false, inlineBlob := Option.none,
            externLoc := Option.some (ram.contents.length, buf.length,
              TrieBlobCompression.none) }) := by
  constructor
  · intro disk hoff
    refine ⟨{ disk with
        contents := disk.contents ++ lz4CompressPrependSize buf,
        pos := disk.contents.length + (lz4CompressPrependSize buf).length,
        decompressed_lru := lruPut disk.decompressed_lru db.nextId buf },
      (trie_sql.write_external_trie_blob db bhh disk.contents.length
        (lz4CompressPrependSize buf).length
        (Option.some (TrieFile.compress_blob buf))).1, ?_, rfl, rfl, ?_, ?_⟩
    · rw [store_disk_eq, hoff, writeAt_eq_append]
    · exact lruLookup_lruPut _ _ _
    · exact lookupRecord_write_external db bhh disk.contents.length
        (lz4CompressPrependSize buf).length
        (Option.some (TrieFile.compress_blob buf)) hfresh
  · intro ram hoff
    refine ⟨{ ram with
        contents := ram.contents ++ buf,
        pos := ram.contents.length + buf.length },
      (trie_sql.write_external_trie_blob db bhh ram.contents.length buf.length
        Option.none).1, ?_, rfl, ?_⟩
    · rw [store_ram_eq, hoff, writeAt_eq_append]
    · exact lookupRecord_write_external db bhh ram.contents.length buf.length
        Option.none hfresh

/-- C6 witness: storing 3 bytes into a fresh disk store and a fresh RAM
store. -/
theorem C6_store_trie_blob_witness :
    (∃ d1 db1,
      TrieFile.store_trie_blob (TrieFile.Disk
        { contents := [], pos := 0, path := "p.blobs", trie_offsets := [],
          decompressed_lru := [], current_trie := Option.none,
          current_block_id := Option.none })
        { records := [], nextId := 0, migrated := false,
          pendingMigrationV2 := false, pendingMigrationV3 := false } 5 [1, 2, 3]
        = (Outcome.ok (TrieFile.Disk d1, db1, 0),
           [FsEvent.writeFile "p.blobs" (lz4CompressPrependSize [1, 2, 3]),
            FsEvent.flushFile "p.blobs", FsEvent.syncFile "p.blobs",
            FsEvent.publishLocation 0 0 (lz4CompressPrependSize [1, 2, 3]).length]) ∧
      d1.contents = [] ++ lz4CompressPrependSize [1, 2, 3] ∧
      d1.path = "p.blobs" ∧
      lruLookup d1.decompressed_lru 0 = Option.some [1, 2, 3] ∧
      trie_sql.lookupRecord db1 0 = Option.some
        { blockHash := 5, unconfirmed := false, inlineBlob := Option.none,
          externLoc := Option.some (0, (lz4CompressPrependSize [1, 2, 3]).length,
            TrieBlobCompression.lz4) }) := by
  have h := (C6_store_trie_blob
    { records := [], nextId := 0, migrated := false,
      pendingMigrationV2 := false, pendingMigrationV3 := false } 5 [1, 2, 3]
    (by decide)).1
    { contents := [], pos := 0, path := "p.blobs", trie_offsets := [],
      decompressed_lru := [], current_trie := Option.none,
      current_block_id := Option.none } (by decide)
  exact h

/-! ## Claim C7 -/

/-- C7: `load_trie_blob` follows exactly the three-tier protocol.  If the
single-slot current id equals the block id it returns at once, with no
state change and no backend read.  Else on an LRU hit it refreshes the
entry to most recently used and makes it current, again without a backend
read.  Else it resolves the BlobLocation, reads exactly `length` bytes at
`offset` from the backend, decompresses them, inserts the result into the
LRU and makes it current. -/
theorem C7_load_three_tier (disk : TrieFileDisk) (db : MetadataDB)
    (block_id : Nat) :
    (disk.current_block_id = Option.some block_id →
      disk.load_trie_blob db block_id = (Outcome.ok disk, [])) ∧
    (∀ v lru1, ¬ disk.current_block_id = Option.some block_id →
      lruGetMove disk.decompressed_lru block_id = Option.some (v, lru1) →
      disk.load_trie_blob db block_id
        = (Outcome.ok { disk with decompressed_lru := lru1,
                                  current_block_id := Option.some block_id,
                                  current_trie := Option.some (v, 0) }, [])) ∧
    (∀ et disk1 d, ¬ disk.current_block_id = Option.some block_id →
      lruGetMove disk.decompressed_lru block_id = Option.none →
      disk.get_trie_offset db block_id = Except.ok (et, disk1) →
      et.offset + et.length ≤ disk.contents.length →
      lz4DecompressSizePrepended ((disk.contents.drop et.offset).take et.length)
        = Option.some d →
      ((disk.contents.drop et.offset).take et.length).length = et.length ∧
      disk.load_trie_blob db block_id
        = (Outcome.ok { disk1 with
            pos := et.offset + et.length,
            decompressed_lru := lruPut disk1.decompressed_lru block_id d,
            current_block_id := Option.some block_id,
            current_trie := Option.some (d, 0) },
           [FsEvent.readFile disk.path et.offset et.length])) := by
  refine ⟨?_, ?_, ?_⟩
  · intro h1
    dsimp only [TrieFileDisk.load_trie_blob]
    rw [if_pos h1]
  · intro v lru1 h1 h2
    dsimp only [TrieFileDisk.load_trie_blob]
    rw [if_neg h1, h2]
  · intro et disk1 d h1 h2 h3 hb h4
    have hc := (get_trie_offset_frame _ _ _ _ _ h3).1
    have hlen : ((disk.contents.drop et.offset).take et.length).length
        = et.length := take_drop_length_eq _ _ _ hb
    refine ⟨hlen, ?_⟩
    dsimp only [TrieFileDisk.load_trie_blob]
    rw [if_neg h1, h2, h3]
    dsimp only
    rw [hc, h4]
    dsimp only
    rw [hlen]

/-- A disk store whose current slot holds block 5. -/
def hotDisk : TrieFileDisk :=
  { contents := [], pos := 0, path := "w.blobs", trie_offsets := [],
    decompressed_lru := [], current_trie := Option.some ([], 0),
    current_block_id := Option.some 5 }

/-- A disk store whose LRU holds block 5 but whose current slot is empty. -/
def warmDisk : TrieFileDisk :=
  { contents := [], pos := 0, path := "w.blobs", trie_offsets := [],
    decompressed_lru := [(5, [9])], current_trie := Option.none,
    current_block_id := Option.none }

/-- A cold disk store holding one compressed blob for block 0 on disk. -/
def coldDisk : TrieFileDisk :=
  { contents := [3, 0, 0, 0, 48, 1, 2, 3], pos := 0, path := "w.blobs",
    trie_offsets := [], decompressed_lru := [], current_trie := Option.none,
    current_block_id := Option.none }

/-- Metadata locating block 0 in `coldDisk`. -/
def coldDb : MetadataDB :=
  { records := [(0,
      { blockHash := 2, unconfirmed := false, inlineBlob := Option.none,
        externLoc := Option.some (0, 8, TrieBlobCompression.lz4) })],
    nextId := 1, migrated := true, pendingMigrationV2 := false,
    pendingMigrationV3 := false }

/-- C7 witness: the three tiers at concrete stores — current-slot hit, LRU
hit, and a cold read from the backend. -/
theorem C7_load_three_tier_witness :
    hotDisk.load_trie_blob coldDb 5 = (Outcome.ok hotDisk, []) ∧
    warmDisk.load_trie_blob coldDb 5
      = (Outcome.ok { warmDisk with decompressed_lru := [(5, [9])],
                                    current_block_id := Option.some 5,
                                    current_trie := Option.some ([9], 0) }, []) ∧
    coldDisk.load_trie_blob coldDb 0
      = (Outcome.ok { coldDisk with
          pos := 8,
          trie_offsets := [(0, { offset := 0, length := 8 })],
          decompressed_lru := lruPut
            ({ coldDisk with
                trie_offsets := [(0, { offset := 0, length := 8 })]
              } : TrieFileDisk).decompressed_lru 0 [1, 2, 3],
          current_block_id := Option.some 0,
          current_trie := Option.some ([1, 2, 3], 0) },
         [FsEvent.readFile "w.blobs" 0 8]) := by
  refine ⟨(C7_load_three_tier hotDisk coldDb 5).1 rfl,
    (C7_load_three_tier warmDisk coldDb 5).2.1 [9] [(5, [9])] (by decide) (by decide),
    ?_⟩
  have h := (C7_load_three_tier coldDisk coldDb 0).2.2
    { offset := 0, length := 8 }
    { coldDisk with trie_offsets := [(0, { offset := 0, length := 8 })] }
    [1, 2, 3] (by decide) (by decide) rfl (by decide) (by decide)
  exact h.2

/-! ## Claim C8 -/

/-- Load a sequence of block ids one after the other (the spec's scenario
of loading many distinct blocks into one disk-backed store). -/
def loadAll (disk : TrieFileDisk) (db : MetadataDB) :
    List Nat → Outcome TrieFileDisk × List FsEvent
  | [] => (Outcome.ok disk, [])
  | i :: rest =>
    match disk.load_trie_blob db i with
    | (Outcome.ok d1, tr) =>
      (match loadAll d1 db rest with
       | (r, tr2) => (r, tr ++ tr2))
    | (Outcome.err e, tr) => (Outcome.err e, tr)
    | (Outcome.panicked m, tr) => (Outcome.panicked m, tr)

/-- A just-opened disk store over an existing backend file: empty caches,
no current trie. -/
def openDisk (path : String) (contents : List Nat) : TrieFileDisk :=
  { contents := contents, pos := 0, path := path, trie_offsets := [],
    decompressed_lru := [], current_trie := Option.none,
    current_block_id := Option.none }

/-- The block id has a recorded BlobLocation whose stored bytes decompress
successfully against the given backend contents. -/
def loadableB (db : MetadataDB) (contents : List Nat) (i : Nat) : Bool :=
  match trie_sql.get_external_trie_offset_length db i with
  | Except.ok (o, l, _) =>
    (lz4DecompressSizePrepended ((contents.drop o).take l)).isSome
  | Except.error _ => false

theorem take_append_take (a l : List Nat) (n : Nat) :
    (a ++ l.take n).take n = (a ++ l).take n := by
  rw [List.take_append_eq_append_take, List.take_append_eq_append_take,
    List.take_take, Nat.min_eq_left (Nat.sub_le n a.length)]

theorem headI_not_mem_reverse_take (ids : List Nat) (h256 : ids.length = 256)
    (hnd : ids.Nodup) : ids.headI ∉ ids.reverse.take 255 := by
  cases ids with
  | nil => simp at h256
  | cons a t =>
    have ht : t.reverse.length = 255 := by
      simp only [List.length_reverse]
      simpa using h256
    simp only [List.headI, List.reverse_cons]
    rw [show (255 : Nat) = t.reverse.length from ht.symm, List.take_left]
    simp only [List.mem_reverse]
    exact (List.nodup_cons.mp hnd).1

/-- Loading a list of ids that are fresh to every cache of the store, each
of them readable from the backend, succeeds and leaves the LRU holding the
most recently loaded 255 of them (most recent first). -/
theorem loadAll_fresh (ids : List Nat) :
    ∀ (disk : TrieFileDisk) (db : MetadataDB),
      ids.Nodup →
      (∀ i ∈ ids, i ∉ lruKeys disk.decompressed_lru) →
      (∀ i ∈ ids, ¬ disk.current_block_id = Option.some i) →
      (∀ i ∈ ids, disk.trie_offsets.find? (fun p => p.1 = i) = Option.none) →
      (∀ i ∈ ids, loadableB db disk.contents i = true) →
      disk.decompressed_lru.length ≤ 255 →
      ∃ disk1 tr, loadAll disk db ids = (Outcome.ok disk1, tr) ∧
        lruKeys disk1.decompressed_lru
          = (ids.reverse ++ lruKeys disk.decompressed_lru).take 255 ∧
        disk1.contents = disk.contents := by
  induction ids with
  | nil =>
    intro disk db _ _ _ _ _ hlen
    refine ⟨disk, [], rfl, ?_, rfl⟩
    rw [List.reverse_nil, List.nil_append,
      List.take_of_length_le (by simpa [lruKeys] using hlen)]
  | cons i rest ih =>
    intro disk db hnd hkeys hcur hoffs hload hlen
    have hc : ¬ disk.current_block_id = Option.some i :=
      hcur i (List.mem_cons_self i rest)
    have hk : i ∉ lruKeys disk.decompressed_lru :=
      hkeys i (List.mem_cons_self i rest)
    have hgm : lruGetMove disk.decompressed_lru i = Option.none :=
      lruGetMove_none_of_not_mem _ _ hk
    have hf : disk.trie_offsets.find? (fun p => p.1 = i) = Option.none :=
      hoffs i (List.mem_cons_self i rest)
    have hlb := hload i (List.mem_cons_self i rest)
    cases hge : trie_sql.get_external_trie_offset_length db i with
    | error e => simp [loadableB, hge] at hlb
    | ok triple =>
      obtain ⟨o, l, alg⟩ := triple
      have hdec : (lz4DecompressSizePrepended
          ((disk.contents.drop o).take l)).isSome = true := by
        simpa [loadableB, hge] using hlb
      obtain ⟨d, hd⟩ := Option.isSome_iff_exists.mp hdec
      have hgt : disk.get_trie_offset db i
          = Except.ok ({ offset := o, length := l },
            { disk with trie_offsets :=
                disk.trie_offsets ++ [(i, { offset := o, length := l })] }) := by
        dsimp only [TrieFileDisk.get_trie_offset]
        rw [hf, hge]
      have hload_eq : disk.load_trie_blob db i
          = (Outcome.ok
              { disk with
                trie_offsets :=
                  disk.trie_offsets ++ [(i, { offset := o, length := l })],
                pos := o + ((disk.contents.drop o).take l).length,
                decompressed_lru := lruPut disk.decompressed_lru i d,
                current_block_id := Option.some i,
                current_trie := Option.some (d, 0) },
             [FsEvent.readFile disk.path o l]) := by
        dsimp only [TrieFileDisk.load_trie_blob]
        rw [if_neg hc, hgm, hgt]
        dsimp only
        rw [hd]
      have hrest := ih
        { disk with
          trie_offsets := disk.trie_offsets ++ [(i, { offset := o, length := l })],
          pos := o + ((disk.contents.drop o).take l).length,
          decompressed_lru := lruPut disk.decompressed_lru i d,
          current_block_id := Option.some i,
          current_trie := Option.some (d, 0) } db
        (List.nodup_cons.mp hnd).2
        (by
          intro j hj
          have hji : j ≠ i := by
            intro hinst
            exact (List.nodup_cons.mp hnd).1 (hinst ▸ hj)
          have hjk : j ∉ lruKeys disk.decompressed_lru :=
            hkeys j (List.mem_cons_of_mem i hj)
          dsimp only
          rw [lruPut_keys_fresh _ _ _ hk]
          intro hmem
          have := List.take_subset 255 _ hmem
          rcases List.mem_cons.mp this with h | h
          · exact hji h
          · exact hjk h)
        (by
          intro j hj
          dsimp only
          have hji : j ≠ i := by
            intro hinst
            exact (List.nodup_cons.mp hnd).1 (hinst ▸ hj)
          simp [hji.symm])
        (by
          intro j hj
          have hji : j ≠ i := by
            intro hinst
            exact (List.nodup_cons.mp hnd).1 (hinst ▸ hj)
          dsimp only
          rw [List.find?_append, hoffs j (List.mem_cons_of_mem i hj)]
          rw [List.find?_cons_of_neg _ (by simp [hji.symm])]
          rfl)
        (by
          intro j hj
          dsimp only
          exact hload j (List.mem_cons_of_mem i hj))
        (by dsimp only; exact lruPut_length_le _ _ _)
      obtain ⟨disk1, tr2, heq, hkeys1, hcont⟩ := hrest
      refine ⟨disk1, FsEvent.readFile disk.path o l :: tr2, ?_, ?_, ?_⟩
      · simp only [loadAll]
        rw [hload_eq]
        dsimp only
        rw [heq]
        rfl
      · rw [hkeys1]
        dsimp only
        rw [lruPut_keys_fresh _ _ _ hk, take_append_take, List.reverse_cons,
          List.append_assoc, List.singleton_append]
      · rw [hcont]


/-- C8: the decompressed-content LRU of a disk-backed store never exceeds
255 entries (`load_trie_blob` preserves the bound), eviction is strict LRU
with both insertion (`put`) and access (`get`) refreshing the entry to most
recently used, and after loading 256 distinct loadable block ids into a
freshly opened store the first-loaded (least recently accessed) id is no
longer resident. -/
theorem C8_lru_bound_and_eviction :
    (∀ (disk : TrieFileDisk) (db : MetadataDB) (i : Nat) (d1 : TrieFileDisk)
       (tr : List FsEvent),
       disk.decompressed_lru.length ≤ 255 →
       disk.load_trie_blob db i = (Outcome.ok d1, tr) →
       d1.decompressed_lru.length ≤ 255) ∧
    ((∀ c k v c1, lruGetMove c k = Option.some (v, c1) →
        c1.head? = Option.some (k, v)) ∧
     (∀ c k v, (lruPut c k v).head? = Option.some (k, v))) ∧
    (∀ (path : String) (contents : List Nat) (db : MetadataDB) (ids : List Nat),
       ids.length = 256 → ids.Nodup →
       (∀ i ∈ ids, loadableB db contents i = true) →
       ∃ disk1 tr, loadAll (openDisk path contents) db ids
           = (Outcome.ok disk1, tr) ∧
         disk1.decompressed_lru.length ≤ 255 ∧
         ids.headI ∉ lruKeys disk1.decompressed_lru) := by
  refine ⟨?_, ⟨lruGetMove_head, lruPut_head⟩, ?_⟩
  · intro disk db i d1 tr hlen h
    dsimp only [TrieFileDisk.load_trie_blob] at h
    by_cases h1 : disk.current_block_id = Option.some i
    · rw [if_pos h1] at h
      simp only [Prod.mk.injEq, Outcome.ok.injEq] at h
      rw [← h.1]
      exact hlen
    · rw [if_neg h1] at h
      cases hgm : lruGetMove disk.decompressed_lru i with
      | some pr =>
        obtain ⟨v, c1⟩ := pr
        rw [hgm] at h
        simp only [Prod.mk.injEq, Outcome.ok.injEq] at h
        rw [← h.1]
        exact le_trans (lruGetMove_length _ _ _ _ hgm) hlen
      | none =>
        rw [hgm] at h
        cases hgt : disk.get_trie_offset db i with
        | error e => rw [hgt] at h; exact absurd h (by simp)
        | ok pr =>
          obtain ⟨et, dsk1⟩ := pr
          rw [hgt] at h
          dsimp only at h
          cases hdc : lz4DecompressSizePrepended
              ((dsk1.contents.drop et.offset).take et.length) with
          | none => rw [hdc] at h; exact absurd h (by simp)
          | some d =>
            rw [hdc] at h
            simp only [Prod.mk.injEq, Outcome.ok.injEq] at h
            rw [← h.1]
            exact lruPut_length_le _ _ _
  · intro path contents db ids h256 hnd hload
    have h := loadAll_fresh ids (openDisk path contents) db hnd
      (by intro j hj; simp [openDisk, lruKeys])
      (by intro j hj; simp [openDisk])
      (by intro j hj; simp [openDisk])
      (by intro j hj; exact hload j hj)
      (by simp [openDisk])
    obtain ⟨disk1, tr, heq, hkeys, _⟩ := h
    refine ⟨disk1, tr, heq, ?_, ?_⟩
    · have : (lruKeys disk1.decompressed_lru).length ≤ 255 := by
        rw [hkeys]
        exact le_trans (List.length_take_le _ _) (le_refl _)
      simpa [lruKeys] using this
    · rw [hkeys]
      simp only [openDisk, lruKeys, List.map_nil, List.append_nil]
      exact headI_not_mem_reverse_take ids h256 hnd

/-- The 256-record metadata store all of whose blocks share one stored
location holding the compressed empty blob. -/
def uniformDb : MetadataDB :=
  { records := (List.range 256).map (fun i => (i,
      { blockHash := 0, unconfirmed := false, inlineBlob := Option.none,
        externLoc := Option.some (0, 5, TrieBlobCompression.lz4) })),
    nextId := 256, migrated := true, pendingMigrationV2 := false,
    pendingMigrationV3 := false }

set_option maxRecDepth 4096 in
/-- C8 witness: the bound after a concrete load, the refresh behavior of
the concrete caches, and the 256-distinct-loads eviction scenario. -/
theorem C8_lru_bound_and_eviction_witness :
    ([(0, [1, 2, 3])] : List (Nat × List Nat)).length ≤ 255 ∧
    ([(5, [9])].head? = Option.some (5, [9])) ∧
    (lruPut [] 3 [7]).head? = Option.some (3, [7]) ∧
    (∃ disk1 tr, loadAll (openDisk "u.blobs" [0, 0, 0, 0, 0]) uniformDb
        (List.range 256) = (Outcome.ok disk1, tr) ∧
      disk1.decompressed_lru.length ≤ 255 ∧
      (List.range 256).headI ∉ lruKeys disk1.decompressed_lru) := by
  refine ⟨?_, ?_, C8_lru_bound_and_eviction.2.1.2 [] 3 [7], ?_⟩
  · exact C8_lru_bound_and_eviction.1 coldDisk coldDb 0
      { coldDisk with
        pos := 8,
        trie_offsets := [(0, { offset := 0, length := 8 })],
        decompressed_lru := [(0, [1, 2, 3])],
        current_block_id := Option.some 0,
        current_trie := Option.some ([1, 2, 3], 0) }
      [FsEvent.readFile "w.blobs" 0 8] (by decide) (by decide)
  · exact C8_lru_bound_and_eviction.2.1.1 [(5, [9])] 5 [9] [(5, [9])] (by decide)
  · exact C8_lru_bound_and_eviction.2.2 "u.blobs" [0, 0, 0, 0, 0] uniformDb
      (List.range 256) (by simp) (List.nodup_range 256) (by decide)

/-! ## Claim C9 -/

/-- Is the id a stored, confirmed block? -/
def isConfirmedBlock (db : MetadataDB) (i : Nat) : Bool :=
  match trie_sql.lookupRecord db i with
  | Option.some r => !r.unconfirmed
  | Option.none => false

/-- The inline blob of a confirmed block, if any. -/
def confirmedInlineBlob (db : MetadataDB) (i : Nat) : Option (List Nat) :=
  match trie_sql.lookupRecord db i with
  | Option.some r => if r.unconfirmed then Option.none else r.inlineBlob
  | Option.none => Option.none

/-- A confirmed block, if present, has its inline bytes available. -/
def inlineReady (db : MetadataDB) (i : Nat) : Bool :=
  match trie_sql.lookupRecord db i with
  | Option.some r => r.unconfirmed || r.inlineBlob.isSome
  | Option.none => true

/-- The bytes `export_trie_blobs` appends for a list of ids: the compressed
inline blobs of exactly the confirmed ones, in order. -/
def exportPayload (db : MetadataDB) (ids : List Nat) : List Nat :=
  (ids.filterMap (fun i =>
    Option.map lz4CompressPrependSize (confirmedInlineBlob db i))).flatten

theorem find?_map_keyed (l : List (Nat × TrieBlobRecord))
    (f : TrieBlobRecord → TrieBlobRecord) (id j : Nat) :
    (l.map (fun p => if p.1 = id then (p.1, f p.2) else p)).find?
        (fun p => p.1 = j)
      = if j = id then
          (l.find? (fun p => p.1 = j)).map (fun p => (p.1, f p.2))
        else l.find? (fun p => p.1 = j) := by
  induction l with
  | nil => simp
  | cons q l ih =>
    simp only [List.map_cons]
    by_cases hqj : q.1 = j
    · have hkey : ((if q.1 = id then (q.1, f q.2) else q) : Nat × TrieBlobRecord).1
          = q.1 := by
        by_cases hqi : q.1 = id <;> simp [hqi]
      rw [List.find?_cons_of_pos _ (by rw [hkey] at *; simp [hqj]),
        List.find?_cons_of_pos _ (by simp [hqj])]
      by_cases hji : j = id
      · rw [if_pos hji]
        have hqi : q.1 = id := hqj.trans hji
        simp [hqi]
      · have hqi : ¬ (q.1 = id) := by rw [hqj]; exact hji
        rw [if_neg hji, if_neg hqi]
    · have hkey : ((if q.1 = id then (q.1, f q.2) else q) : Nat × TrieBlobRecord).1
          = q.1 := by
        by_cases hqi : q.1 = id <;> simp [hqi]
      rw [List.find?_cons_of_neg _ (by rw [hkey] at *; simp [hqj]),
        List.find?_cons_of_neg _ (by simp [hqj]), ih]

theorem lookupRecord_update (db : MetadataDB) (bhh : Nat) (off len : Nat)
    (comp : Option BlobCompressionResult) (id j : Nat) :
    trie_sql.lookupRecord
        (trie_sql.update_external_trie_blob db bhh off len comp id) j
      = if j = id then
          (trie_sql.lookupRecord db j).map (trie_sql.exportedRecord off len comp)
        else trie_sql.lookupRecord db j := by
  dsimp only [trie_sql.lookupRecord, trie_sql.update_external_trie_blob]
  rw [find?_map_keyed db.records (trie_sql.exportedRecord off len comp) id j]
  by_cases hji : j = id
  · rw [if_pos hji, if_pos hji, Option.map_map, Option.map_map]
    rfl
  · rw [if_neg hji, if_neg hji]

theorem confirmedInlineBlob_congr (db1 db2 : MetadataDB) (j : Nat)
    (h : trie_sql.lookupRecord db1 j = trie_sql.lookupRecord db2 j) :
    confirmedInlineBlob db1 j = confirmedInlineBlob db2 j := by
  dsimp only [confirmedInlineBlob]
  rw [h]

theorem exportPayload_congr (db1 db2 : MetadataDB) (ids : List Nat)
    (h : ∀ i ∈ ids, confirmedInlineBlob db1 i = confirmedInlineBlob db2 i) :
    exportPayload db1 ids = exportPayload db2 ids := by
  dsimp only [exportPayload]
  rw [List.filterMap_congr (fun x hx => by rw [h x hx])]

theorem exportPayload_cons_confirmed (db : MetadataDB) (i : Nat)
    (ids : List Nat) (b : List Nat) (h : confirmedInlineBlob db i = Option.some b) :
    exportPayload db (i :: ids) = lz4CompressPrependSize b ++ exportPayload db ids := by
  dsimp only [exportPayload]
  rw [List.filterMap_cons, h]
  rfl

theorem exportPayload_cons_skip (db : MetadataDB) (i : Nat) (ids : List Nat)
    (h : confirmedInlineBlob db i = Option.none) :
    exportPayload db (i :: ids) = exportPayload db ids := by
  dsimp only [exportPayload]
  rw [List.filterMap_cons, h]
  rfl

theorem getContents_append_write (tf : TrieFile) (buf : List Nat) :
    ((tf.setPos tf.getContents.length).writeAllAtPos buf).getContents
      = tf.getContents ++ buf := by
  cases tf with
  | RAM ram =>
    dsimp only [TrieFile.setPos, TrieFile.writeAllAtPos, TrieFile.getContents]
    exact writeAt_eq_append _ _
  | Disk d =>
    dsimp only [TrieFile.setPos, TrieFile.writeAllAtPos, TrieFile.getContents]
    exact writeAt_eq_append _ _

theorem isConfirmedBlock_congr (db1 db2 : MetadataDB) (j : Nat)
    (h : trie_sql.lookupRecord db1 j = trie_sql.lookupRecord db2 j) :
    isConfirmedBlock db1 j = isConfirmedBlock db2 j := by
  dsimp only [isConfirmedBlock]
  rw [h]

theorem inlineReady_congr (db1 db2 : MetadataDB) (j : Nat)
    (h : trie_sql.lookupRecord db1 j = trie_sql.lookupRecord db2 j) :
    inlineReady db1 j = inlineReady db2 j := by
  dsimp only [inlineReady]
  rw [h]

/-- The `export_trie_blobs` iteration over a duplicate-free id list: it
succeeds, appends exactly the compressed inline blobs of the confirmed ids
to the end of the backend, leaves the records of skipped ids untouched, and
rewrites each confirmed id's record to a new BlobLocation with the LZ4 tag
and an emptied inline representation. -/
theorem exportLoop_spec (ids : List Nat) :
    ∀ (tf : TrieFile) (db : MetadataDB),
      ids.Nodup →
      (∀ j ∈ ids, inlineReady db j = true) →
      ∃ tf1 db1 tr, TrieFile.exportLoop tf db ids = (Outcome.ok (tf1, db1), tr) ∧
        tf1.getContents = tf.getContents ++ exportPayload db ids ∧
        (∀ j, (j ∉ ids ∨ isConfirmedBlock db j = false) →
          trie_sql.lookupRecord db1 j = trie_sql.lookupRecord db j) ∧
        (∀ j ∈ ids, ∀ r b, trie_sql.lookupRecord db j = Option.some r →
          r.unconfirmed = false → r.inlineBlob = Option.some b →
          ∃ o, trie_sql.lookupRecord db1 j = Option.some
            { r with externLoc := Option.some (o,
                (lz4CompressPrependSize b).length, TrieBlobCompression.lz4),
                     inlineBlob := Option.some [] }) := by
  induction ids with
  | nil =>
    intro tf db _ _
    exact ⟨tf, db, [], rfl, by simp [exportPayload], fun j _ => rfl,
      fun j hj => absurd hj (List.not_mem_nil j)⟩
  | cons i rest ih =>
    intro tf db hnd hready
    have hirest : i ∉ rest := (List.nodup_cons.mp hnd).1
    cases hl : trie_sql.lookupRecord db i with
    | none =>
      have hu : trie_sql.is_unconfirmed_block db i
          = Except.error MarfError.notFound := by
        dsimp only [trie_sql.is_unconfirmed_block]
        rw [hl]
      obtain ⟨tf1, db1, tr, heq, hcont, hunt, hupd⟩ :=
        ih tf db (List.nodup_cons.mp hnd).2
          (fun j hj => hready j (List.mem_cons_of_mem i hj))
      refine ⟨tf1, db1, tr, ?_, ?_, ?_, ?_⟩
      · simp only [TrieFile.exportLoop]
        rw [hu]
        exact heq
      · rw [hcont, exportPayload_cons_skip db i rest
          (by dsimp only [confirmedInlineBlob]; rw [hl])]
      · intro j hj
        apply hunt
        rcases hj with hj | hj
        · exact Or.inl (fun hmem => hj (List.mem_cons_of_mem i hmem))
        · exact Or.inr hj
      · intro j hj r b hlr hconf hinl
        rcases List.mem_cons.mp hj with hji | hjm
        · subst hji
          rw [hl] at hlr
          exact absurd hlr (by simp)
        · exact hupd j hjm r b hlr hconf hinl
    | some r =>
      cases hrc : r.unconfirmed with
      | true =>
        have hu : trie_sql.is_unconfirmed_block db i = Except.ok true := by
          dsimp only [trie_sql.is_unconfirmed_block]
          rw [hl]
          dsimp only
          rw [hrc]
        obtain ⟨tf1, db1, tr, heq, hcont, hunt, hupd⟩ :=
          ih tf db (List.nodup_cons.mp hnd).2
            (fun j hj => hready j (List.mem_cons_of_mem i hj))
        refine ⟨tf1, db1, tr, ?_, ?_, ?_, ?_⟩
        · simp only [TrieFile.exportLoop]
          rw [hu]
          exact heq
        · rw [hcont, exportPayload_cons_skip db i rest
            (by dsimp only [confirmedInlineBlob]; rw [hl]; dsimp only; rw [hrc]; rfl)]
        · intro j hj
          apply hunt
          rcases hj with hj | hj
          · exact Or.inl (fun hmem => hj (List.mem_cons_of_mem i hmem))
          · exact Or.inr hj
        · intro j hj r0 b0 hlr hconf hinl
          rcases List.mem_cons.mp hj with hji | hjm
          · subst hji
            rw [hl] at hlr
            have : r0 = r := by injection hlr with h; exact h.symm
            subst this
            rw [hrc] at hconf
            exact absurd hconf (by simp)
          · exact hupd j hjm r0 b0 hlr hconf hinl
      | false =>
        have hu : trie_sql.is_unconfirmed_block db i = Except.ok false := by
          dsimp only [trie_sql.is_unconfirmed_block]
          rw [hl]
          dsimp only
          rw [hrc]
        have hrdy := hready i (List.mem_cons_self i rest)
        have hbs : r.inlineBlob.isSome = true := by
          dsimp only [inlineReady] at hrdy
          rw [hl] at hrdy
          dsimp only at hrdy
          rw [hrc] at hrdy
          simpa using hrdy
        obtain ⟨b, hb⟩ := Option.isSome_iff_exists.mp hbs
        have hread : trie_sql.read_trie_blob_from_db db i = Except.ok b := by
          dsimp only [trie_sql.read_trie_blob_from_db]
          rw [hl]
          dsimp only
          rw [hb]
        have hhash : trie_sql.get_block_hash db i = Except.ok r.blockHash := by
          dsimp only [trie_sql.get_block_hash]
          rw [hl]
        have hcib : confirmedInlineBlob db i = Option.some b := by
          dsimp only [confirmedInlineBlob]
          rw [hl]
          dsimp only
          rw [hrc, hb]
          rfl
        obtain ⟨tf2, db2, tr2, heq2, hcont2, hunt2, hupd2⟩ :=
          ih ((tf.setPos tf.getContents.length).writeAllAtPos
              (TrieFile.compress_blob b).compressed_bytes)
            (trie_sql.update_external_trie_blob db r.blockHash
              tf.getContents.length
              (TrieFile.compress_blob b).compressed_bytes.length
              (Option.some (TrieFile.compress_blob b)) i)
            (List.nodup_cons.mp hnd).2
            (by
              intro j hj
              have hji : j ≠ i := fun hinst => hirest (hinst ▸ hj)
              rw [inlineReady_congr _ db j
                (by rw [lookupRecord_update, if_neg hji])]
              exact hready j (List.mem_cons_of_mem i hj))
        have hlu : ∀ j, j ≠ i →
            trie_sql.lookupRecord
              (trie_sql.update_external_trie_blob db r.blockHash
                tf.getContents.length
                (TrieFile.compress_blob b).compressed_bytes.length
                (Option.some (TrieFile.compress_blob b)) i) j
            = trie_sql.lookupRecord db j := by
          intro j hji
          rw [lookupRecord_update, if_neg hji]
        refine ⟨tf2, db2,
          FsEvent.writeFile tf.get_path (TrieFile.compress_blob b).compressed_bytes
            :: FsEvent.flushFile tf.get_path
            :: FsEvent.publishLocation i tf.getContents.length
                 (TrieFile.compress_blob b).compressed_bytes.length
            :: tr2, ?_, ?_, ?_, ?_⟩
        · simp only [TrieFile.exportLoop]
          rw [hu, hread, hhash]
          dsimp only
          rw [heq2]
        · rw [hcont2, getContents_append_write,
            exportPayload_congr _ db rest
              (fun j hj => confirmedInlineBlob_congr _ _ j
                (hlu j (fun hinst => hirest (hinst ▸ hj)))),
            exportPayload_cons_confirmed db i rest b hcib, List.append_assoc]
          rfl
        · intro j hj
          have hji : j ≠ i := by
            rcases hj with hj | hj
            · exact fun hinst => hj (hinst ▸ List.mem_cons_self i rest)
            · intro hinst
              subst hinst
              dsimp only [isConfirmedBlock] at hj
              rw [hl] at hj
              dsimp only at hj
              rw [hrc] at hj
              exact absurd hj (by simp)
          have step2 : trie_sql.lookupRecord db2 j
              = trie_sql.lookupRecord
                  (trie_sql.update_external_trie_blob db r.blockHash
                    tf.getContents.length
                    (TrieFile.compress_blob b).compressed_bytes.length
                    (Option.some (TrieFile.compress_blob b)) i) j := by
            apply hunt2
            rcases hj with hj | hj
            · exact Or.inl (fun hmem => hj (List.mem_cons_of_mem i hmem))
            · refine Or.inr ?_
              rw [isConfirmedBlock_congr _ db j (hlu j hji)]
              exact hj
          rw [step2, hlu j hji]
        · intro j hj r0 b0 hlr hconf hinl
          rcases List.mem_cons.mp hj with hji | hjm
          · subst hji
            rw [hl] at hlr
            have hr0 : r0 = r := by injection hlr with h; exact h.symm
            subst hr0
            rw [hb] at hinl
            have hb0 : b0 = b := by injection hinl with h; exact h.symm
            subst hb0
            refine ⟨tf.getContents.length, ?_⟩
            have step2 : trie_sql.lookupRecord db2 j
                = trie_sql.lookupRecord
                    (trie_sql.update_external_trie_blob db r0.blockHash
                      tf.getContents.length
                      (TrieFile.compress_blob b0).compressed_bytes.length
                      (Option.some (TrieFile.compress_blob b0)) j) j :=
              hunt2 j (Or.inl hirest)
            rw [step2, lookupRecord_update, if_pos rfl, hl]
            rfl
          · have hji : j ≠ i := fun hinst => hirest (hinst ▸ hjm)
            exact hupd2 j hjm r0 b0 (by rw [hlu j hji]; exact hlr) hconf hinl

/-- C9: `export_trie_blobs` iterates block ids from 0 up to the current
maximum, skips unconfirmed and absent ids without touching their records or
the backend, and for every confirmed id compresses its inline bytes,
appends them to the external backend and rewrites its record to the new
location and LZ4 tag — so exactly the confirmed blocks are appended.
Hypotheses: no pending partial migration, ids are dense (below the block
count, spec section 3), and every confirmed block still has its inline
bytes. -/
theorem C9_export_iteration (tf : TrieFile) (db : MetadataDB) (dbp : String)
    (h2 : db.pendingMigrationV2 = false)
    (hdense : ∀ q ∈ db.records, q.1 < db.nextId)
    (hready : ∀ j ∈ List.range (trie_sql.count_blocks db + 1),
      inlineReady db j = true) :
    ∃ tf1 db1 tr,
      TrieFile.export_trie_blobs tf db dbp = (Outcome.ok (tf1, db1), tr) ∧
      tf1.getContents = tf.getContents
        ++ exportPayload db (List.range (trie_sql.count_blocks db + 1)) ∧
      (∀ j, isConfirmedBlock db j = false →
        trie_sql.lookupRecord db1 j = trie_sql.lookupRecord db j) ∧
      (∀ j r b, trie_sql.lookupRecord db j = Option.some r →
        r.unconfirmed = false → r.inlineBlob = Option.some b →
        ∃ o, trie_sql.lookupRecord db1 j = Option.some
          { r with externLoc := Option.some (o,
              (lz4CompressPrependSize b).length, TrieBlobCompression.lz4),
                   inlineBlob := Option.some [] }) := by
  obtain ⟨tf1, db1, tr, heq, hcont, hunt, hupd⟩ :=
    exportLoop_spec (List.range (trie_sql.count_blocks db + 1)) tf db
      (List.nodup_range _) hready
  refine ⟨tf1, trie_sql.set_migrated db1, tr, ?_, hcont, ?_, ?_⟩
  · dsimp only [TrieFile.export_trie_blobs]
    rw [if_neg (by simp [trie_sql.detectPendingMigrationV2, h2]), heq]
  · intro j hconf
    rw [lookupRecord_set_migrated]
    exact hunt j (Or.inr hconf)
  · intro j r b hlr hconf hinl
    have hjmem : j ∈ List.range (trie_sql.count_blocks db + 1) := by
      dsimp only [trie_sql.lookupRecord] at hlr
      cases hf : db.records.find? (fun p => p.1 = j) with
      | none => rw [hf] at hlr; exact absurd hlr (by simp)
      | some p =>
        have hpj : p.1 = j := by simpa using List.find?_some hf
        have hpm : p ∈ db.records := List.mem_of_find?_eq_some hf
        have hlt := hdense p hpm
        refine List.mem_range.mpr ?_
        dsimp only [trie_sql.count_blocks]
        omega
    obtain ⟨o, ho⟩ := hupd j hjmem r b hlr hconf hinl
    exact ⟨o, by rw [lookupRecord_set_migrated]; exact ho⟩

/-- Scenario C: five confirmed blocks and one unconfirmed block, all still
inline. -/
def scenCDb : MetadataDB :=
  { records := [
      (0, { blockHash := 100, unconfirmed := false,
            inlineBlob := Option.some [10], externLoc := Option.none }),
      (1, { blockHash := 101, unconfirmed := false,
            inlineBlob := Option.some [11], externLoc := Option.none }),
      (2, { blockHash := 102, unconfirmed := false,
            inlineBlob := Option.some [12], externLoc := Option.none }),
      (3, { blockHash := 103, unconfirmed := true,
            inlineBlob := Option.some [13], externLoc := Option.none }),
      (4, { blockHash := 104, unconfirmed := false,
            inlineBlob := Option.some [14], externLoc := Option.none }),
      (5, { blockHash := 105, unconfirmed := false,
            inlineBlob := Option.some [15], externLoc := Option.none })],
    nextId := 6, migrated := false, pendingMigrationV2 := false,
    pendingMigrationV3 := false }

/-- C9 witness: the export run on Scenario C — exactly the five confirmed
blobs are appended and the unconfirmed block's record is untouched. -/
theorem C9_export_iteration_witness :
    ∃ tf1 db1 tr,
      TrieFile.export_trie_blobs (TrieFile.new_disk "s.blobs" false) scenCDb "s"
        = (Outcome.ok (tf1, db1), tr) ∧
      tf1.getContents = (TrieFile.new_disk "s.blobs" false).getContents
        ++ exportPayload scenCDb (List.range (trie_sql.count_blocks scenCDb + 1)) ∧
      (∀ j, isConfirmedBlock scenCDb j = false →
        trie_sql.lookupRecord db1 j = trie_sql.lookupRecord scenCDb j) ∧
      (∀ j r b, trie_sql.lookupRecord scenCDb j = Option.some r →
        r.unconfirmed = false → r.inlineBlob = Option.some b →
        ∃ o, trie_sql.lookupRecord db1 j = Option.some
          { r with externLoc := Option.some (o,
              (lz4CompressPrependSize b).length, TrieBlobCompression.lz4),
                   inlineBlob := Option.some [] }) :=
  C9_export_iteration (TrieFile.new_disk "s.blobs" false) scenCDb "s" rfl
    (by decide) (by decide)

/-- C1 counterexample: on a store with one confirmed inline block,
`export_trie_blobs` publishes the new BlobLocation to the metadata store
after only a write and a flush: its trace contains a publication but no
durability sync of the backend precedes it. -/
theorem C1_counterexample :
    hasPublish (TrieFile.export_trie_blobs emptyDiskP oneBlockDb "p").2 = true ∧
    syncBeforePublishOk "p.blobs"
      (TrieFile.export_trie_blobs emptyDiskP oneBlockDb "p").2 = false := by
  decide

/-- C1 (amended): `store_trie_blob` on a disk backend, and the compress
path (whose appends go through `append_trie_blob`), write, flush and fsync
the backend holding the blob before every publication of a BlobLocation;
`export_trie_blobs`, however, performs no durability sync at all — its
publications are preceded only by a write and a flush. -/
theorem C1_sync_before_publish :
    (∀ (disk : TrieFileDisk) (db : MetadataDB) (bhh : Nat) (buf : List Nat),
      syncBeforePublishOk disk.path
        (TrieFile.store_trie_blob (TrieFile.Disk disk) db bhh buf).2 = true) ∧
    (∀ (tf : TrieFile) (db : MetadataDB),
      syncBeforePublishOk (tf.get_path ++ ".v3")
        (TrieFile.compress_trie_blobs tf db).2 = true) ∧
    (∀ (tf : TrieFile) (db : MetadataDB) (p : String),
      ((TrieFile.export_trie_blobs tf db p).2.all (fun e => !(isSyncEvt e))) = true) := by
  refine ⟨?_, ?_, ?_⟩
  · intro disk db bhh buf
    dsimp only [TrieFile.store_trie_blob, TrieFile.append_trie_blob]
    simp [syncBeforePublishOk, syncSeenCheck]
  · intro tf db
    dsimp only [TrieFile.compress_trie_blobs]
    by_cases h3 : trie_sql.detectPendingMigrationV3 db = true
    · simp [h3, syncBeforePublishOk, syncSeenCheck]
    · rw [if_neg h3]
      cases hu : trie_sql.get_uncompressed_external_trie_blobs db 1 with
      | nil => simp [syncBeforePublishOk, syncSeenCheck]
      | cons a as =>
        dsimp only
        have hs := compressLoop_sync_ok (db.records.length + 1) tf
          { contents := [], pos := 0, path := tf.get_path ++ ".v3",
            trie_offsets := [], decompressed_lru := [],
            current_trie := Option.none, current_block_id := Option.none } db false
        cases hloop : TrieFile.compressLoop (db.records.length + 1) tf
            (TrieFile.new_disk (tf.get_path ++ ".v3") false) db with
        | mk r tr =>
          have hloop2 : TrieFile.compressLoop (db.records.length + 1) tf
              (TrieFile.Disk
                { contents := [], pos := 0, path := tf.get_path ++ ".v3",
                  trie_offsets := [], decompressed_lru := [],
                  current_trie := Option.none, current_block_id := Option.none }) db
              = (r, tr) := hloop
          rw [hloop2] at hs
          cases r with
          | ok v => obtain ⟨tfa, v3a, dba⟩ := v; exact hs
          | err e => exact hs
          | panicked m => exact hs
  · intro tf db p
    dsimp only [TrieFile.export_trie_blobs]
    by_cases hd : trie_sql.detectPendingMigrationV2 db = true
    · simp [hd]
    · rw [if_neg hd]
      have hns := exportLoop_no_sync (List.range (trie_sql.count_blocks db + 1)) tf db
      cases hres : TrieFile.exportLoop tf db (List.range (trie_sql.count_blocks db + 1)) with
      | mk r tr =>
        rw [hres] at hns
        cases r with
        | ok v => obtain ⟨tf1, db1⟩ := v; exact hns
        | err e => exact hns
        | panicked m => exact hns

/-- C2 counterexample: the framing stores the uncompressed length in a
4-byte little-endian prefix (a Rust `u32` cast), so at the 2^32-byte input
the prefix wraps to 0 and decompression rejects the output; the round-trip
equation of the claim fails at this input. -/
theorem C2_counterexample :
    ¬ (lz4DecompressSizePrepended
        ((TrieFile.compress_blob (List.replicate 4294967296 0)).compressed_bytes)
      = Option.some (List.replicate 4294967296 0)) := by
  have hc : (TrieFile.compress_blob (List.replicate 4294967296 0)).compressed_bytes
      = lz4CompressPrependSize (List.replicate 4294967296 0) := rfl
  rw [hc, lz4_roundtrip_framed, List.length_replicate, if_neg (lt_irrefl 4294967296)]
  intro hcontra
  exact Option.noConfusion hcontra

/-- C2 (amended): for every byte sequence `b` whose length is below 2^32 —
including the empty sequence — decompressing the result of compressing `b`
(LZ4 block compression with the 4-byte little-endian uncompressed-length
prefix) yields exactly `b`. -/
theorem C2_roundtrip (b : List Nat) (h : b.length < 4294967296) :
    lz4DecompressSizePrepended ((TrieFile.compress_blob b).compressed_bytes)
      = Option.some b := by
  have hc : (TrieFile.compress_blob b).compressed_bytes = lz4CompressPrependSize b := rfl
  rw [hc, lz4_roundtrip_framed, if_pos h]

/-- C2 witness: the round trip at the empty sequence. -/
theorem C2_roundtrip_witness :
    lz4DecompressSizePrepended ((TrieFile.compress_blob []).compressed_bytes)
      = Option.some [] :=
  C2_roundtrip [] (by decide)

/-! ## Claim C4 -/

/-- C4: whenever the partial-migration marker of the relevant schema phase
is set, `export_trie_blobs` and `compress_trie_blobs` terminate the process
with the operator-facing message instead of returning a value, and do so
with an empty event trace: before any append or metadata update. -/
theorem C4_migration_abort :
    (∀ (tf : TrieFile) (db : MetadataDB) (p : String), db.pendingMigrationV2 = true →
      TrieFile.export_trie_blobs tf db p = (Outcome.panicked migrationAbortMsg, [])) ∧
    (∀ (tf : TrieFile) (db : MetadataDB), db.pendingMigrationV3 = true →
      TrieFile.compress_trie_blobs tf db = (Outcome.panicked migrationAbortMsg, [])) := by
  constructor
  · intro tf db p h
    simp [TrieFile.export_trie_blobs, trie_sql.detectPendingMigrationV2, h]
  · intro tf db h
    simp [TrieFile.compress_trie_blobs, trie_sql.detectPendingMigrationV3, h]

/-- C4 witness: both procedures abort on a concrete marked store. -/
theorem C4_migration_abort_witness :
    TrieFile.export_trie_blobs (TrieFile.new_ram false) flaggedDb memSentinel
        = (Outcome.panicked migrationAbortMsg, []) ∧
    TrieFile.compress_trie_blobs (TrieFile.new_ram false) flaggedDb
        = (Outcome.panicked migrationAbortMsg, []) :=
  ⟨C4_migration_abort.1 (TrieFile.new_ram false) flaggedDb memSentinel rfl,
   C4_migration_abort.2 (TrieFile.new_ram false) flaggedDb rfl⟩

end Blockstore
